import Mathlib

set_option maxRecDepth 16384

/-!
Shallow embedding of the AirHound firmware core (Rust, `src/`) in Lean 4.

Conventions: machine integers (u8/u16/u32/usize) are modelled as `Nat` and
i8 as `Int`; Rust `&str` and byte slices are modelled as `List Nat` of their
UTF-8 / raw bytes; `heapless` bounded vectors and strings are lists whose
push operations respect the source capacity checks; a Rust panic is
modelled as `Option.none`.
-/

/-- UTF-8 bytes of an ASCII string literal.  All compiled-in table strings
in `defaults.rs` / `filter.rs` are ASCII, for which the code points are
exactly the UTF-8 bytes. -/
def ascii (s : String) : List Nat := s.data.map Char.toNat

/-! ### rules.rs : expression nodes, `SigMatchSet`, `evaluate_rule` -/

/-- rules.rs `MAX_SIGNATURES`. -/
def MAX_SIGNATURES : Nat := 256

/-- rules.rs `MAX_EVAL_STACK`. -/
def MAX_EVAL_STACK : Nat := 16

/-- rules.rs `ExprNode`: a node of the flat post-order expression encoding.
`Sig` carries a `SigIdx` (u16), the combinators carry their `count` (u8). -/
inductive ExprNode where
  | Sig : Nat → ExprNode
  | AnyOf : Nat → ExprNode
  | AllOf : Nat → ExprNode
  | Not : ExprNode
  deriving DecidableEq

/-- rules.rs `SigMatchSet`: 256-bit bitset stored as four u64 words
(`bits: [u64; 4]`, modelled as a length-4 list of word values). -/
structure SigMatchSet where
  bits : List Nat
  deriving DecidableEq

/-- rules.rs `SigMatchSet::new`. -/
def SigMatchSet.new : SigMatchSet := ⟨[0, 0, 0, 0]⟩

/-- rules.rs `SigMatchSet::set`: indices >= 256 are silently ignored. -/
def SigMatchSet.set (m : SigMatchSet) (idx : Nat) : SigMatchSet :=
  if idx < MAX_SIGNATURES then
    ⟨m.bits.set (idx / 64) ((m.bits.getD (idx / 64) 0) ||| (1 <<< (idx % 64)))⟩
  else m

/-- rules.rs `SigMatchSet::get`. -/
def SigMatchSet.get (m : SigMatchSet) (idx : Nat) : Bool :=
  if idx < MAX_SIGNATURES then ((m.bits.getD (idx / 64) 0) >>> (idx % 64)) &&& 1 == 1
  else false

/-- rules.rs `SigMatchSet::is_empty`. -/
def SigMatchSet.is_empty (m : SigMatchSet) : Bool := m.bits.all (fun w => w == 0)

/-- One iteration of the `for` loop in rules.rs `evaluate_rule`, acting on
the boolean evaluation stack (top of stack at the head of the list).
`none` models the early `return false` taken on stack underflow
(`stack.len() < count`, or `Not` on an empty stack) and on stack overflow
(`stack.push(..).is_err()`, i.e. a push onto a full 16-slot stack). -/
def evalStep (m : SigMatchSet) (stack : List Bool) : ExprNode → Option (List Bool)
  | .Sig idx => if stack.length < MAX_EVAL_STACK then some (m.get idx :: stack) else none
  | .AnyOf count =>
      if stack.length < count then none
      else
        let rest := stack.drop count
        if rest.length < MAX_EVAL_STACK then some (((stack.take count).any id) :: rest)
        else none
  | .AllOf count =>
      if stack.length < count then none
      else
        let rest := stack.drop count
        if rest.length < MAX_EVAL_STACK then some (((stack.take count).all id) :: rest)
        else none
  | .Not =>
      match stack with
      | [] => none
      | v :: rest => if rest.length < MAX_EVAL_STACK then some ((!v) :: rest) else none

/-- The full stack walk of rules.rs `evaluate_rule` over a node slice. -/
def evalWalk (m : SigMatchSet) : List ExprNode → List Bool → Option (List Bool)
  | [], stack => some stack
  | n :: ns, stack =>
      match evalStep m stack n with
      | none => none
      | some s => evalWalk m ns s

/-- rules.rs `evaluate_rule`: empty expressions are false; otherwise run the
stack walk and require exactly one value, which is the result
(`stack.len() == 1 && stack[0]`); any early `return false` (underflow or
overflow, modelled by the walk returning `none`) yields false. -/
def evaluate_rule (nodes : List ExprNode) (m : SigMatchSet) : Bool :=
  if nodes.isEmpty then false
  else
    match evalWalk m nodes [] with
    | some [v] => v
    | _ => false

/-- A node slice `c` behaves as a closed subexpression with value `v` that
needs `k` free stack slots: run from any stack with `k` slots of headroom,
the walk pushes exactly `v`.  (`k = 1` for a `Sig` leaf; nested combinators
need more.) -/
def EvalClosed (m : SigMatchSet) (c : List ExprNode) (v : Bool) (k : Nat) : Prop :=
  ∀ s : List Bool, s.length + k ≤ MAX_EVAL_STACK → evalWalk m c s = some (v :: s)

/-! ### Shared byte-level helpers -/

/-- Rust `u8::to_ascii_lowercase`. -/
def to_ascii_lowercase (b : Nat) : Nat := if 65 ≤ b && b ≤ 90 then b + 32 else b

/-- The whitespace bytes stripped by comm.rs `trim_trailing_whitespace`:
space, LF, CR, TAB. -/
def isWsByte (b : Nat) : Bool := b == 32 || b == 10 || b == 13 || b == 9

/-- A UTF-8 continuation byte (0x80..=0xBF). -/
def isCont (b : Nat) : Bool := 128 ≤ b && b ≤ 191

/-- Validity of a byte list as UTF-8, as checked by Rust
`core::str::from_utf8` (standard table, rejecting overlong encodings,
surrogates and values above U+10FFFF). -/
def utf8_valid : List Nat → Bool
  | [] => true
  | b :: rest =>
    if b ≤ 127 then utf8_valid rest
    else if 194 ≤ b && b ≤ 223 then
      match rest with
      | c1 :: r => isCont c1 && utf8_valid r
      | _ => false
    else if b == 224 then
      match rest with
      | c1 :: c2 :: r => (160 ≤ c1 && c1 ≤ 191) && isCont c2 && utf8_valid r
      | _ => false
    else if 225 ≤ b && b ≤ 236 then
      match rest with
      | c1 :: c2 :: r => isCont c1 && isCont c2 && utf8_valid r
      | _ => false
    else if b == 237 then
      match rest with
      | c1 :: c2 :: r => (128 ≤ c1 && c1 ≤ 159) && isCont c2 && utf8_valid r
      | _ => false
    else if 238 ≤ b && b ≤ 239 then
      match rest with
      | c1 :: c2 :: r => isCont c1 && isCont c2 && utf8_valid r
      | _ => false
    else if b == 240 then
      match rest with
      | c1 :: c2 :: c3 :: r => (144 ≤ c1 && c1 ≤ 191) && isCont c2 && isCont c3 && utf8_valid r
      | _ => false
    else if 241 ≤ b && b ≤ 243 then
      match rest with
      | c1 :: c2 :: c3 :: r => isCont c1 && isCont c2 && isCont c3 && utf8_valid r
      | _ => false
    else if b == 244 then
      match rest with
      | c1 :: c2 :: c3 :: r => (128 ≤ c1 && c1 ≤ 143) && isCont c2 && isCont c3 && utf8_valid r
      | _ => false
    else false

/-- Rust `char::is_ascii_hexdigit`, on a single-byte (ASCII) character. -/
def isAsciiHexdigitByte (b : Nat) : Bool :=
  (48 ≤ b && b ≤ 57) || (97 ≤ b && b ≤ 102) || (65 ≤ b && b ≤ 70)

/-- Rust `char::is_ascii_digit`, on a single-byte (ASCII) character. -/
def isAsciiDigitByte (b : Nat) : Bool := 48 ≤ b && b ≤ 57

/-- Rust `str::contains` / `[u8]::windows(k).any(==pat)`: contiguous
substring search at the byte level (for valid UTF-8 a char-level substring
is exactly a byte-level one). -/
def containsSub : List Nat → List Nat → Bool
  | [], pat => pat.isEmpty
  | h :: t, pat => pat.isPrefixOf (h :: t) || containsSub t pat

/-! ### protocol.rs : message and command types -/

/-- protocol.rs `MAX_MSG_LEN`. -/
def MAX_MSG_LEN : Nat := 512

/-- protocol.rs `MatchReason` (`filter_type: &'static str` kept as a Lean
`String`; `detail: MatchDetail = heapless::String<32>` as its UTF-8 bytes). -/
structure MatchReason where
  filter_type : String
  detail : List Nat
  deriving DecidableEq

/-- protocol.rs `HostCommand`. -/
inductive HostCommand where
  | Start
  | Stop
  | GetStatus
  | SetRssi : Int → HostCommand
  | SetBuzzer : Bool → HostCommand
  deriving DecidableEq

/-- protocol.rs `RawCommand`, the flat wire DTO for host commands
(`cmd: heapless::String<16>` as bytes; optional `min_rssi: i8`,
`enabled: bool`). -/
structure RawCommand where
  cmd : List Nat
  min_rssi : Option Int
  enabled : Option Bool

/-- protocol.rs `DeviceMessage` (strings as UTF-8 bytes; `rule` and `uuid`
optional exactly as in the source; the `match`-serialized reasons list,
`matches` in the source, is `matchList` — a reserved word here). -/
inductive DeviceMessage where
  | WiFiScan (mac ssid : List Nat) (rssi : Int) (ch : Nat) (frame : List Nat)
      (matchList : List MatchReason) (rule : Option (List Nat)) (ts : Nat)
  | BleScan (mac name : List Nat) (rssi : Int) (uuid : Option (List Nat)) (mfr : Nat)
      (matchList : List MatchReason) (rule : Option (List Nat)) (ts : Nat)
  | Status (scanning : Bool) (uptime heap_free : Nat) (ble_clients : Nat)
      (board version : List Nat)

/-! ### defaults.rs : compiled-in signature tables and rule database -/

/-- defaults.rs `SuffixKind`. -/
inductive SuffixKind where
  | HexChars
  | DecimalDigits
  deriving DecidableEq

/-- defaults.rs `SsidPattern`.  The source field `prefix` is renamed `pre`
(reserved word in this development); it is an ASCII string literal. -/
structure SsidPattern where
  pre : String
  suffix_len : Nat
  suffix_kind : SuffixKind
  description : String

/-- defaults.rs `SsidPattern::matches`, at the byte level.  The source
checks `suffix.len() != self.suffix_len` (UTF-8 byte length) and then
(the source method is named `matches`, a reserved word here)
`suffix.chars().all(|c| c.is_ascii_hexdigit())` (resp. digit); on a valid
UTF-8 string the char-level `all` equals the byte-level `all` below, since
a matching char is a single ASCII byte and any multibyte char fails both. -/
def SsidPattern.matchesSsid (p : SsidPattern) (ssid : List Nat) : Bool :=
  if (ascii p.pre).isPrefixOf ssid then
    if (ssid.drop (ascii p.pre).length).length != p.suffix_len then false
    else
      match p.suffix_kind with
      | .HexChars => (ssid.drop (ascii p.pre).length).all isAsciiHexdigitByte
      | .DecimalDigits => (ssid.drop (ascii p.pre).length).all isAsciiDigitByte
  else false

/-- defaults.rs `MAC_PREFIXES` (3-byte OUI prefix, vendor name). -/
def MAC_PREFIXES : List (List Nat × String) := [
  ([0xB4, 0x1E, 0x52], "Flock Safety"),
  ([0x58, 0x8E, 0x81], "Silicon Labs"),
  ([0xCC, 0xCC, 0xCC], "Silicon Labs"),
  ([0xEC, 0x1B, 0xBD], "Silicon Labs"),
  ([0x90, 0x35, 0xEA], "Silicon Labs"),
  ([0x04, 0x0D, 0x84], "Silicon Labs"),
  ([0xF0, 0x82, 0xC0], "Silicon Labs"),
  ([0x1C, 0x34, 0xF1], "Silicon Labs"),
  ([0x38, 0x5B, 0x44], "Silicon Labs"),
  ([0x94, 0x34, 0x69], "Silicon Labs"),
  ([0xB4, 0xE3, 0xF9], "Silicon Labs"),
  ([0x70, 0xC9, 0x4E], "Silicon Labs"),
  ([0x3C, 0x91, 0x80], "Silicon Labs"),
  ([0xD8, 0xF3, 0xBC], "Silicon Labs"),
  ([0x80, 0x30, 0x49], "Silicon Labs"),
  ([0x14, 0x5A, 0xFC], "Silicon Labs"),
  ([0x74, 0x4C, 0xA1], "Silicon Labs"),
  ([0x08, 0x3A, 0x88], "Silicon Labs"),
  ([0x9C, 0x2F, 0x9D], "Silicon Labs"),
  ([0x94, 0x08, 0x53], "Silicon Labs"),
  ([0xE4, 0xAA, 0xEA], "Silicon Labs"),
  ([0x70, 0x1A, 0xD5], "Avigilon Alta"),
  ([0x00, 0x40, 0x8C], "Axis Communications"),
  ([0xAC, 0xCC, 0x8E], "Axis Communications"),
  ([0xB8, 0xA4, 0x4F], "Axis Communications"),
  ([0xE8, 0x27, 0x25], "Axis Communications"),
  ([0x1C, 0x79, 0x2D], "China Dragon Technology"),
  ([0x3C, 0x3B, 0xAD], "China Dragon Technology"),
  ([0x40, 0x9C, 0xA7], "China Dragon Technology"),
  ([0x54, 0xAE, 0xBC], "China Dragon Technology"),
  ([0x5C, 0x8A, 0xAE], "China Dragon Technology"),
  ([0x6C, 0x05, 0xD3], "China Dragon Technology"),
  ([0xA4, 0x6B, 0x40], "China Dragon Technology"),
  ([0xA8, 0x4F, 0xA4], "China Dragon Technology"),
  ([0xA8, 0xA0, 0x92], "China Dragon Technology"),
  ([0xB0, 0xAC, 0x82], "China Dragon Technology"),
  ([0xBC, 0x2B, 0x02], "China Dragon Technology"),
  ([0xC0, 0xE3, 0x50], "China Dragon Technology"),
  ([0xC8, 0x26, 0xE2], "China Dragon Technology"),
  ([0xC8, 0x8A, 0xD8], "China Dragon Technology"),
  ([0x00, 0x7E, 0x56], "China Dragon Technology"),
  ([0x04, 0x39, 0x26], "China Dragon Technology"),
  ([0x24, 0xB7, 0x2A], "China Dragon Technology"),
  ([0x3C, 0x7A, 0xAA], "China Dragon Technology"),
  ([0x40, 0xAA, 0x56], "China Dragon Technology"),
  ([0x44, 0xEF, 0xBF], "China Dragon Technology"),
  ([0x78, 0x8A, 0x86], "China Dragon Technology"),
  ([0x94, 0xE0, 0xD6], "China Dragon Technology"),
  ([0xA0, 0x67, 0x20], "China Dragon Technology"),
  ([0xA0, 0x9D, 0xC1], "China Dragon Technology"),
  ([0xA8, 0x43, 0xA4], "China Dragon Technology"),
  ([0xD0, 0xA4, 0x6F], "China Dragon Technology"),
  ([0xE0, 0x51, 0xD8], "China Dragon Technology"),
  ([0xE0, 0x75, 0x26], "China Dragon Technology"),
  ([0x00, 0x13, 0x56], "FLIR Radiation"),
  ([0x00, 0x40, 0x7F], "FLIR Systems"),
  ([0x00, 0x1B, 0xD8], "FLIR Systems"),
  ([0x00, 0x13, 0xE2], "GeoVision"),
  ([0x44, 0xB4, 0x23], "Hanwha Vision"),
  ([0x8C, 0x1D, 0x55], "Hanwha Vision"),
  ([0xE4, 0x30, 0x22], "Hanwha Vision"),
  ([0x00, 0x10, 0xBE], "March Networks"),
  ([0x00, 0x12, 0x81], "March Networks"),
  ([0x48, 0x05, 0x60], "Meta Platforms"),
  ([0x50, 0x99, 0x03], "Meta Platforms"),
  ([0x78, 0xC4, 0xFA], "Meta Platforms"),
  ([0x80, 0xF3, 0xEF], "Meta Platforms"),
  ([0x84, 0x57, 0xF7], "Meta Platforms"),
  ([0x88, 0x25, 0x08], "Meta Platforms"),
  ([0x94, 0xF9, 0x29], "Meta Platforms"),
  ([0xB4, 0x17, 0xA8], "Meta Platforms"),
  ([0xC0, 0xDD, 0x8A], "Meta Platforms"),
  ([0xCC, 0xA1, 0x74], "Meta Platforms"),
  ([0xD0, 0xB3, 0xC2], "Meta Platforms"),
  ([0xD4, 0xD6, 0x59], "Meta Platforms"),
  ([0x00, 0x03, 0xC5], "Mobotix"),
  ([0x08, 0xEA, 0x40], "Shenzhen Bilian"),
  ([0x0C, 0x8C, 0x24], "Shenzhen Bilian"),
  ([0x0C, 0xCF, 0x89], "Shenzhen Bilian"),
  ([0x10, 0xA4, 0xBE], "Shenzhen Bilian"),
  ([0x14, 0x5D, 0x34], "Shenzhen Bilian"),
  ([0x14, 0x6B, 0x9C], "Shenzhen Bilian"),
  ([0x20, 0x32, 0x33], "Shenzhen Bilian"),
  ([0x2C, 0xC3, 0xE6], "Shenzhen Bilian"),
  ([0x30, 0x7B, 0xC9], "Shenzhen Bilian"),
  ([0x34, 0x7D, 0xE4], "Shenzhen Bilian"),
  ([0x38, 0x01, 0x46], "Shenzhen Bilian"),
  ([0x38, 0x7A, 0xCC], "Shenzhen Bilian"),
  ([0x44, 0x01, 0xBB], "Shenzhen Bilian"),
  ([0x54, 0xEF, 0x33], "Shenzhen Bilian"),
  ([0x60, 0xFB, 0x00], "Shenzhen Bilian"),
  ([0x6C, 0xD5, 0x52], "Shenzhen Bilian"),
  ([0x74, 0xEE, 0x2A], "Shenzhen Bilian"),
  ([0x78, 0x22, 0x88], "Shenzhen Bilian"),
  ([0x7C, 0xA7, 0xB0], "Shenzhen Bilian"),
  ([0x84, 0xFC, 0x14], "Shenzhen Bilian"),
  ([0x88, 0x49, 0x2D], "Shenzhen Bilian"),
  ([0x94, 0xBA, 0x06], "Shenzhen Bilian"),
  ([0x98, 0x03, 0xCF], "Shenzhen Bilian"),
  ([0xA0, 0x9F, 0x10], "Shenzhen Bilian"),
  ([0xA8, 0xB5, 0x8E], "Shenzhen Bilian"),
  ([0xB4, 0x6D, 0xC2], "Shenzhen Bilian"),
  ([0xC4, 0x3C, 0xB0], "Shenzhen Bilian"),
  ([0xC8, 0xFE, 0x0F], "Shenzhen Bilian"),
  ([0xCC, 0x64, 0x1A], "Shenzhen Bilian"),
  ([0xE0, 0xB9, 0x4D], "Shenzhen Bilian"),
  ([0xEC, 0x3D, 0xFD], "Shenzhen Bilian"),
  ([0xF0, 0xC8, 0x14], "Shenzhen Bilian"),
  ([0xFC, 0x23, 0xCD], "Shenzhen Bilian"),
  ([0x20, 0xF4, 0x1B], "Shenzhen Bilian"),
  ([0x28, 0xF3, 0x66], "Shenzhen Bilian"),
  ([0x3C, 0x33, 0x00], "Shenzhen Bilian"),
  ([0x44, 0x33, 0x4C], "Shenzhen Bilian"),
  ([0xAC, 0xA2, 0x13], "Shenzhen Bilian"),
  ([0x00, 0x1C, 0x27], "Sunell Electronics")]

/-- defaults.rs `SSID_PATTERNS`. -/
def SSID_PATTERNS : List SsidPattern := [
  { pre := "Flock-", suffix_len := 6, suffix_kind := SuffixKind.HexChars,
    description := "Flock Safety camera WiFi" },
  { pre := "Penguin-", suffix_len := 10, suffix_kind := SuffixKind.DecimalDigits,
    description := "Penguin device WiFi" }]

/-- defaults.rs `SSID_EXACT`. -/
def SSID_EXACT : List String := ["FS Ext Battery"]

/-- defaults.rs `SSID_KEYWORDS`. -/
def SSID_KEYWORDS : List String := ["flock", "penguin", "pigvision"]

/-- defaults.rs `WIFI_NAME_KEYWORDS`. -/
def WIFI_NAME_KEYWORDS : List String := ["flock"]

/-- defaults.rs `BLE_NAME_PATTERNS`. -/
def BLE_NAME_PATTERNS : List String := ["Flock", "Penguin", "FS Ext Battery", "Pigvision"]

/-- defaults.rs `BLE_SERVICE_UUIDS_16`. -/
def BLE_SERVICE_UUIDS_16 : List Nat := [0x3100, 0x3200, 0x3300, 0x3400, 0x3500]

/-- defaults.rs `BLE_STANDARD_UUIDS_16`. -/
def BLE_STANDARD_UUIDS_16 : List Nat := [0x180A, 0x1809, 0x1819]

/-- defaults.rs `BLE_MANUFACTURER_IDS`. -/
def BLE_MANUFACTURER_IDS : List Nat := [0x09C8]

/-- defaults.rs `BleAdBytesPattern`. -/
structure BleAdBytesPattern where
  bytes : List Nat
  offset : Option Nat
  description : String

/-- defaults.rs `BLE_AD_BYTES_PATTERNS`. -/
def BLE_AD_BYTES_PATTERNS : List BleAdBytesPattern := [
  { bytes := [0x4C, 0x00, 0x12, 0x19], offset := some 0, description := "Apple AirTag" },
  { bytes := [0x80, 0x30], offset := none, description := "Flipper Zero" },
  { bytes := [0x81, 0x30], offset := none, description := "Flipper Zero" }]

/-- defaults.rs signature index bases (global index of entry `i` of table T
is `SIG_IDX_T_START + i`). -/
def SIG_IDX_MAC_OUI_START : Nat := 0

def SIG_IDX_SSID_PATTERN_START : Nat := SIG_IDX_MAC_OUI_START + MAC_PREFIXES.length

def SIG_IDX_SSID_EXACT_START : Nat := SIG_IDX_SSID_PATTERN_START + SSID_PATTERNS.length

def SIG_IDX_SSID_KEYWORD_START : Nat := SIG_IDX_SSID_EXACT_START + SSID_EXACT.length

def SIG_IDX_WIFI_NAME_START : Nat := SIG_IDX_SSID_KEYWORD_START + SSID_KEYWORDS.length

def SIG_IDX_BLE_NAME_START : Nat := SIG_IDX_WIFI_NAME_START + WIFI_NAME_KEYWORDS.length

def SIG_IDX_BLE_UUID_START : Nat := SIG_IDX_BLE_NAME_START + BLE_NAME_PATTERNS.length

def SIG_IDX_BLE_STD_UUID_START : Nat := SIG_IDX_BLE_UUID_START + BLE_SERVICE_UUIDS_16.length

def SIG_IDX_BLE_MFR_START : Nat := SIG_IDX_BLE_STD_UUID_START + BLE_STANDARD_UUIDS_16.length

def SIG_IDX_BLE_AD_BYTES_START : Nat := SIG_IDX_BLE_MFR_START + BLE_MANUFACTURER_IDS.length

/-- defaults.rs `SIG_COUNT`. -/
def SIG_COUNT : Nat := SIG_IDX_BLE_AD_BYTES_START + BLE_AD_BYTES_PATTERNS.length

/-! ### filter.rs : filter engine -/

/-- filter.rs `FilterConfig`. -/
structure FilterConfig where
  min_rssi : Int
  wifi_enabled : Bool
  ble_enabled : Bool

/-- filter.rs `FilterConfig::new`. -/
def FilterConfig.new : FilterConfig :=
  { min_rssi := -90, wifi_enabled := true, ble_enabled := true }

/-- filter.rs `WiFiScanInput` (`mac: &[u8; 6]` as a byte list, `ssid: &str`
as its UTF-8 bytes, `rssi: i8`). -/
structure WiFiScanInput where
  mac : List Nat
  ssid : List Nat
  rssi : Int

/-- filter.rs `BleScanInput`. -/
structure BleScanInput where
  mac : List Nat
  name : List Nat
  rssi : Int
  service_uuids_16 : List Nat
  manufacturer_id : Nat
  raw_ad : List Nat

/-- filter.rs `FilterResult` (`matches` is `matchList` — reserved word). -/
structure FilterResult where
  matched : Bool
  matchList : List MatchReason
  sig_matches : SigMatchSet
  rule_names : List String
  deriving DecidableEq

/-- filter.rs `FilterResult::new`. -/
def FilterResult.new : FilterResult :=
  { matched := false, matchList := [], sig_matches := SigMatchSet.new, rule_names := [] }

/-- Rust `str::is_char_boundary` on the UTF-8 byte list of the string. -/
def is_char_boundary (s : List Nat) (i : Nat) : Bool :=
  if i == 0 then true
  else
    match s.get? i with
    | none => i == s.length
    | some b => b < 128 || 192 ≤ b

/-- filter.rs `FilterResult::add_match`.  The truncation slice
`&detail[..32]` is a Rust `str` slice, which panics (modelled `none`) when
byte index 32 is not a character boundary; when it succeeds, the
`d.push_str(truncated)` into the 32-byte `MatchDetail` always fits, and
`matches.push` succeeds because `matches.len() < 4` was checked.
`self.matched = true` runs in either branch. -/
def add_match (r : FilterResult) (t : String) (detail : List Nat) : Option FilterResult :=
  if r.matchList.length < 4 then
    match
      (if detail.length ≤ 32 then some detail
       else if is_char_boundary detail 32 then some (detail.take 32) else none) with
    | none => none
    | some truncated =>
        some { r with
          matchList := r.matchList ++ [{ filter_type := t, detail := truncated }],
          matched := true }
  else some { r with matched := true }

/-- The indexed linear scan of filter.rs `check_mac_oui`: on the first
matching OUI entry, set its bit, record the reason and `return`. -/
def check_mac_oui_go (oui : List Nat) (r : FilterResult) :
    List (Nat × (List Nat × String)) → Option FilterResult
  | [] => some r
  | ip :: rest =>
      if ip.2.1 == oui then
        add_match
          { r with sig_matches := r.sig_matches.set (SIG_IDX_MAC_OUI_START + ip.1) }
          "mac_oui" (ascii ip.2.2)
      else check_mac_oui_go oui r rest

/-- filter.rs `check_mac_oui`: linear scan of `MAC_PREFIXES`, only the
first matching entry is reported (`return` after the first hit). -/
def check_mac_oui (mac : List Nat) (r : FilterResult) : Option FilterResult :=
  check_mac_oui_go (mac.take 3) r MAC_PREFIXES.enum

/-- The flag/bitset agreement invariant of a `FilterResult` (C10): the
bitset words are the four u64 of `SigMatchSet`, `matched` agrees with the
bitset being nonempty, and recorded reasons imply `matched`. -/
def WfR (r : FilterResult) : Prop :=
  r.sig_matches.bits.length = 4
  ∧ (r.matched = true ↔ r.sig_matches.is_empty = false)
  ∧ (r.matchList ≠ [] → r.matched = true)

/-- filter.rs `find_manufacturer_data`: first AD structure of type 0xFF;
`pos + 1 + len > ad.len()` is `rest.length < len` for the remaining slice
`len :: rest`. -/
def find_manufacturer_data : List Nat → Option (List Nat)
  | [] => none
  | len :: rest =>
      if len == 0 || decide (rest.length < len) then none
      else if rest.headD 0 == 0xFF then some ((rest.drop 1).take (len - 1))
      else find_manufacturer_data (rest.drop len)
  termination_by l => l.length
  decreasing_by simp only [List.length_drop, List.length_cons]; omega

/-- filter.rs `check_ble_ad_bytes`.  For `offset = Some(n)` the source
requires `data.len() >= offset + len` and equality of the byte range; for
`None` it is `windows(len).any(..)`, i.e. a contiguous-sublist search (all
compiled-in patterns are nonempty, where the two coincide). -/
def check_ble_ad_bytes (raw_ad : List Nat) (r0 : FilterResult) : Option FilterResult :=
  let mfr_data := find_manufacturer_data raw_ad
  BLE_AD_BYTES_PATTERNS.enum.foldlM (fun r ix =>
    let hit :=
      match ix.2.offset with
      | some off =>
          match mfr_data with
          | some data =>
              decide (off + ix.2.bytes.length ≤ data.length)
                && (data.drop off).take ix.2.bytes.length == ix.2.bytes
          | none => false
      | none => containsSub raw_ad ix.2.bytes
    if hit then
      add_match
        { r with sig_matches := r.sig_matches.set (SIG_IDX_BLE_AD_BYTES_START + ix.1) }
        "ble_ad_bytes" (ascii ix.2.description)
    else some r) r0

/-- filter.rs `filter_wifi`.  The `ssid_lower` stack buffer takes the first
33 bytes lowercased; `from_utf8(..).unwrap_or("")` is the `utf8_valid`
guard. -/
def filter_wifi (input : WiFiScanInput) (config : FilterConfig) : Option FilterResult :=
  if !config.wifi_enabled then some FilterResult.new
  else if input.rssi < config.min_rssi then some FilterResult.new
  else do
    let r1 ← check_mac_oui input.mac FilterResult.new
    let r2 ← SSID_PATTERNS.enum.foldlM (fun r ix =>
        if ix.2.matchesSsid input.ssid then
          add_match
            { r with sig_matches := r.sig_matches.set (SIG_IDX_SSID_PATTERN_START + ix.1) }
            "ssid_pattern" (ascii ix.2.description)
        else some r) r1
    let r3 ← SSID_EXACT.enum.foldlM (fun r ix =>
        if input.ssid == ascii ix.2 then
          add_match
            { r with sig_matches := r.sig_matches.set (SIG_IDX_SSID_EXACT_START + ix.1) }
            "ssid_exact" (ascii ix.2)
        else some r) r2
    let ssid_lower := (input.ssid.take 33).map to_ascii_lowercase
    let ssid_lower_str := if utf8_valid ssid_lower then ssid_lower else []
    let r4 ← SSID_KEYWORDS.enum.foldlM (fun r ix =>
        if containsSub ssid_lower_str (ascii ix.2) then
          add_match
            { r with sig_matches := r.sig_matches.set (SIG_IDX_SSID_KEYWORD_START + ix.1) }
            "ssid_keyword" (ascii ix.2)
        else some r) r3
    let r5 ← WIFI_NAME_KEYWORDS.enum.foldlM (fun r ix =>
        if containsSub ssid_lower_str (ascii ix.2) then
          let ru := { r with sig_matches := r.sig_matches.set (SIG_IDX_WIFI_NAME_START + ix.1) }
          if SSID_KEYWORDS.contains ix.2 then some ru
          else add_match ru "wifi_name" (ascii ix.2)
        else some r) r4
    some r5

/-- The BLE-name block of filter.rs `filter_ble`: skipped when the name is
empty; patterns are lowercased into a 33-byte stack buffer before the
substring test, like the name itself. -/
def ble_name_check (input : BleScanInput) (r0 : FilterResult) : Option FilterResult :=
  if !input.name.isEmpty then
    let name_lower := (input.name.take 33).map to_ascii_lowercase
    let name_lower_str := if utf8_valid name_lower then name_lower else []
    BLE_NAME_PATTERNS.enum.foldlM (fun r ix =>
      let pattern_lower := ((ascii ix.2).take 33).map to_ascii_lowercase
      let pattern_lower_str := if utf8_valid pattern_lower then pattern_lower else []
      if containsSub name_lower_str pattern_lower_str then
        add_match
          { r with sig_matches := r.sig_matches.set (SIG_IDX_BLE_NAME_START + ix.1) }
          "ble_name" (ascii ix.2)
      else some r) r0
  else some r0

/-- The per-UUID body of the service-UUID loop of filter.rs `filter_ble`. -/
def ble_uuid_check (uuid : Nat) (r0 : FilterResult) : Option FilterResult := do
  let ra ← BLE_SERVICE_UUIDS_16.enum.foldlM (fun r ix =>
      if uuid == ix.2 then
        add_match
          { r with sig_matches := r.sig_matches.set (SIG_IDX_BLE_UUID_START + ix.1) }
          "ble_uuid" (ascii "Raven service UUID")
      else some r) r0
  BLE_STANDARD_UUIDS_16.enum.foldlM (fun r ix =>
      if uuid == ix.2 then
        add_match
          { r with sig_matches := r.sig_matches.set (SIG_IDX_BLE_STD_UUID_START + ix.1) }
          "ble_uuid_std" (ascii "Raven standard UUID")
      else some r) ra

/-- The manufacturer-id block of filter.rs `filter_ble`: skipped when the
id is zero. -/
def ble_mfr_check (input : BleScanInput) (r0 : FilterResult) : Option FilterResult :=
  if input.manufacturer_id != 0 then
    BLE_MANUFACTURER_IDS.enum.foldlM (fun r ix =>
      if input.manufacturer_id == ix.2 then
        add_match
          { r with sig_matches := r.sig_matches.set (SIG_IDX_BLE_MFR_START + ix.1) }
          "ble_mfr" (ascii "Known manufacturer ID")
      else some r) r0
  else some r0

/-- filter.rs `filter_ble`, as the sequence of its checks. -/
def filter_ble (input : BleScanInput) (config : FilterConfig) : Option FilterResult :=
  if !config.ble_enabled then some FilterResult.new
  else if input.rssi < config.min_rssi then some FilterResult.new
  else do
    let r1 ← check_mac_oui input.mac FilterResult.new
    let r2 ← ble_name_check input r1
    let r3 ← input.service_uuids_16.foldlM (fun r uuid => ble_uuid_check uuid r) r2
    let r4 ← ble_mfr_check input r3
    if !input.raw_ad.isEmpty then check_ble_ad_bytes input.raw_ad r4 else some r4

/-! ### scanner.rs : BLE advertisement parser -/

/-- scanner.rs `BleEvent` (strings and slices as byte lists). -/
structure BleEvent where
  mac : List Nat
  name : List Nat
  rssi : Int
  service_uuids_16 : List Nat
  manufacturer_id : Nat
  deriving DecidableEq

/-- The 16-bit-UUID inner loop of `BleAdvParser::parse`: consume the data
bytes pairwise little-endian, `heapless::Vec<u16, 8>::push` silently
dropping once the list holds 8 entries. -/
def pushUuids : List Nat → List Nat → List Nat
  | us, b0 :: b1 :: rest => pushUuids (if us.length < 8 then us ++ [b0 + 256 * b1] else us) rest
  | us, _ => us

/-- One AD structure of `BleAdvParser::parse`.  Type 0x02/0x03: 16-bit
UUIDs.  Type 0x08/0x09: `from_utf8(data)` then
`heapless::String<33>::push_str`, which is all-or-nothing — the data is
appended only when it fits entirely in the remaining capacity, otherwise
the push fails and the name is left unchanged.  Type 0xFF: first LE u16 of
the data becomes `manufacturer_id` when the data has at least 2 bytes. -/
def applyAdStruct (ev : BleEvent) (ad_type : Nat) (data : List Nat) : BleEvent :=
  if ad_type == 2 || ad_type == 3 then
    { ev with service_uuids_16 := pushUuids ev.service_uuids_16 data }
  else if ad_type == 8 || ad_type == 9 then
    if utf8_valid data && decide (ev.name.length + data.length ≤ 33) then
      { ev with name := ev.name ++ data }
    else ev
  else if ad_type == 255 then
    if 2 ≤ data.length then
      { ev with manufacturer_id := data.getD 0 0 + 256 * data.getD 1 0 }
    else ev
  else ev

/-- The `[len][type][data]` walk of `BleAdvParser::parse`; stops at
`len == 0` or a `len` overrunning the slice (`rest.length < len`). -/
def parseAdLoop : BleEvent → List Nat → BleEvent
  | ev, [] => ev
  | ev, len :: rest =>
      if len == 0 || decide (rest.length < len) then ev
      else
        parseAdLoop (applyAdStruct ev (rest.headD 0) ((rest.drop 1).take (len - 1)))
          (rest.drop len)
  termination_by _ l => l.length
  decreasing_by simp only [List.length_drop, List.length_cons]; omega

/-- scanner.rs `BleAdvParser::parse`. -/
def BleAdvParser.parse (addr : List Nat) (rssi : Int) (ad_data : List Nat) : BleEvent :=
  parseAdLoop
    { mac := addr, name := [], rssi := rssi, service_uuids_16 := [], manufacturer_id := 0 }
    ad_data

/-! ### comm.rs : serialization, command parsing, line reader -/

/-- comm.rs `trim_trailing_whitespace`: the source loop decrements `end`
while the last remaining byte is space, LF, CR or TAB — i.e. it drops the
longest whitespace suffix. -/
def trim_trailing_whitespace (data : List Nat) : List Nat :=
  (data.reverse.dropWhile isWsByte).reverse

/-- comm.rs `parse_command`, parameterised by the behaviour of the external
`serde_json_core::from_slice::<RawCommand>` deserializer (`fromSlice`
returning `none` models any JSON parse error). -/
def parse_command (fromSlice : List Nat → Option RawCommand) (data : List Nat) :
    Option HostCommand :=
  let trimmed := trim_trailing_whitespace data
  if trimmed.isEmpty then none
  else
    match fromSlice trimmed with
    | none => none
    | some raw =>
        if raw.cmd == ascii "start" then some HostCommand.Start
        else if raw.cmd == ascii "stop" then some HostCommand.Stop
        else if raw.cmd == ascii "status" then some HostCommand.GetStatus
        else if raw.cmd == ascii "set_rssi" then
          raw.min_rssi.map (fun v => HostCommand.SetRssi v)
        else if raw.cmd == ascii "set_buzzer" then
          raw.enabled.map (fun v => HostCommand.SetBuzzer v)
        else none

/-- comm.rs `LineReader`: `buf`/`pos` modelled as the list of the first
`pos` buffered bytes. -/
structure LineReader where
  buf : List Nat
  deriving DecidableEq

/-- comm.rs `LineReader::new`. -/
def LineReader.new : LineReader := ⟨[]⟩

/-- comm.rs `LineReader::feed`. -/
def LineReader.feed (r : LineReader) (b : Nat) : LineReader × Option (List Nat) :=
  if b == 10 || b == 13 then
    if r.buf.length > 0 then (⟨[]⟩, some r.buf) else (r, none)
  else if r.buf.length < MAX_MSG_LEN then (⟨r.buf ++ [b]⟩, none)
  else (⟨[]⟩, none)

/-- Feed a byte sequence one byte at a time, collecting the yielded lines. -/
def feedMany (r : LineReader) : List Nat → LineReader × List (List Nat)
  | [] => (r, [])
  | b :: rest =>
      let p := r.feed b
      let q := feedMany p.1 rest
      (q.1, (match p.2 with | some l => [l] | none => []) ++ q.2)

/-! ### comm.rs : NDJSON serialization (`serialize_message`) -/

/-- Lower-case hex digit byte, as emitted in JSON `\uXXXX` escapes. -/
def hexDigitByte (d : Nat) : Nat := if d < 10 then 48 + d else 87 + d

/-- Modelled from the spec: the JSON string-escaping of the external
`serde_json_core` serializer (not part of src/) — quote and backslash are
escaped, control bytes become two-character escapes or `\u00XX`, all other
bytes pass through. -/
def escByte (b : Nat) : List Nat :=
  if b == 34 then [92, 34]
  else if b == 92 then [92, 92]
  else if b == 8 then [92, 98]
  else if b == 9 then [92, 116]
  else if b == 10 then [92, 110]
  else if b == 12 then [92, 102]
  else if b == 13 then [92, 114]
  else if b < 32 then [92, 117, 48, 48, hexDigitByte (b / 16), hexDigitByte (b % 16)]
  else [b]

/-- Escaped byte stream of a JSON string body. -/
def escapeBytes (s : List Nat) : List Nat := (s.map escByte).flatten

/-- A JSON string literal: `"…"` with byte 34 the quote. -/
def jsonStr (s : List Nat) : List Nat := 34 :: (escapeBytes s ++ [34])

/-- Decimal digits of a natural number (structural recursion on a fuel
that strictly dominates the number of digits, so it is never exhausted). -/
def natDecimalAux : Nat → Nat → List Nat
  | 0, _ => []
  | fuel + 1, n => if n < 10 then [48 + n] else natDecimalAux fuel (n / 10) ++ [48 + n % 10]

/-- Decimal digits of a natural number. -/
def natDecimal (n : Nat) : List Nat := natDecimalAux (n + 1) n

/-- Decimal rendering of an integer (i8/i32 serialize this way). -/
def intDecimal (i : Int) : List Nat :=
  if i < 0 then 45 :: natDecimal (-i).toNat else natDecimal i.toNat

/-- A `"name":value` JSON member (field names are ASCII identifiers,
needing no escapes). -/
def jsonField (nm : String) (v : List Nat) : List Nat :=
  34 :: (ascii nm ++ [34, 58] ++ v)

/-- Comma-separated concatenation (byte 44 is the comma). -/
def jsonList : List (List Nat) → List Nat
  | [] => []
  | [x] => x
  | x :: y :: xs => x ++ [44] ++ jsonList (y :: xs)

/-- Serialized `match` array of `MatchReason` values (`filter_type` is
serde-renamed to `type`). -/
def matchArray (ms : List MatchReason) : List Nat :=
  91 :: (jsonList (ms.map (fun mr =>
    123 :: (jsonField "type" (jsonStr (ascii mr.filter_type)) ++ [44]
      ++ jsonField "detail" (jsonStr mr.detail) ++ [125]))) ++ [93])

/-- An optional string member with its leading comma, empty when skipped
(`skip_serializing_if = "Option::is_none"`). -/
def optField (nm : String) (v : Option (List Nat)) : List Nat :=
  match v with
  | none => []
  | some s => 44 :: jsonField nm (jsonStr s)

/-- The serde internally-tagged header `{"type":"<tag>"`. -/
def typeHeader (tag : String) : List Nat := 123 :: jsonField "type" (jsonStr (ascii tag))

/-- The `type` discriminator of each `DeviceMessage` variant. -/
def typeTagStr : DeviceMessage → String
  | .WiFiScan .. => "wifi"
  | .BleScan .. => "ble"
  | .Status .. => "status"

/-- Modelled from the spec: the external `serde_json_core` serialization of
`DeviceMessage` (not part of src/), per the serde derive attributes in
protocol.rs and the §6 NDJSON message grammar — internally tagged by
`type`, fields in declaration order, `rule`/`uuid` omitted when `None`. -/
def jsonBytes : DeviceMessage → List Nat
  | .WiFiScan mac ssid rssi ch frame ms rule ts =>
      typeHeader "wifi" ++ [44] ++ jsonField "mac" (jsonStr mac) ++ [44]
        ++ jsonField "ssid" (jsonStr ssid) ++ [44]
        ++ jsonField "rssi" (intDecimal rssi) ++ [44]
        ++ jsonField "ch" (natDecimal ch) ++ [44]
        ++ jsonField "frame" (jsonStr frame) ++ [44]
        ++ jsonField "match" (matchArray ms)
        ++ optField "rule" rule
        ++ [44] ++ jsonField "ts" (natDecimal ts) ++ [125]
  | .BleScan mac nm rssi uuid mfr ms rule ts =>
      typeHeader "ble" ++ [44] ++ jsonField "mac" (jsonStr mac) ++ [44]
        ++ jsonField "name" (jsonStr nm) ++ [44]
        ++ jsonField "rssi" (intDecimal rssi)
        ++ optField "uuid" uuid
        ++ [44] ++ jsonField "mfr" (natDecimal mfr) ++ [44]
        ++ jsonField "match" (matchArray ms)
        ++ optField "rule" rule
        ++ [44] ++ jsonField "ts" (natDecimal ts) ++ [125]
  | .Status scanning uptime heap_free ble_clients board version =>
      typeHeader "status" ++ [44]
        ++ jsonField "scanning" (ascii (if scanning then "true" else "false")) ++ [44]
        ++ jsonField "uptime" (natDecimal uptime) ++ [44]
        ++ jsonField "heap_free" (natDecimal heap_free) ++ [44]
        ++ jsonField "ble_clients" (natDecimal ble_clients) ++ [44]
        ++ jsonField "board" (jsonStr board) ++ [44]
        ++ jsonField "version" (jsonStr version) ++ [125]

/-- Modelled from the spec: `serde_json_core::to_slice` writes the JSON
into a buffer of capacity `cap`, failing when it does not fit. -/
def to_slice (msg : DeviceMessage) (cap : Nat) : Option (List Nat) :=
  if (jsonBytes msg).length ≤ cap then some (jsonBytes msg) else none

/-- comm.rs `serialize_message`: append the NDJSON newline when the buffer
has room (`len < buf.len()`), otherwise return the bare JSON length.
The output models the written prefix of the buffer with its length. -/
def serialize_message (msg : DeviceMessage) (cap : Nat) : Option (Nat × List Nat) :=
  match to_slice msg cap with
  | some j => if j.length < cap then some (j.length + 1, j ++ [10]) else some (j.length, j)
  | none => none

/-- The per-character test selected by a `SuffixKind`. -/
def kindByte : SuffixKind → Nat → Bool
  | .HexChars => isAsciiHexdigitByte
  | .DecimalDigits => isAsciiDigitByte

/-! ### C1 -/

/-- Claim C1: `evaluate_rule` returns true iff the post-order stack walk
completes with exactly one value on the stack and that value is true; it
returns false (never panicking — the model is a total function) for the
empty slice, whenever the walk aborts on stack underflow or overflow
(including an overflowing 17-push example), and whenever more than one
value remains; `AllOf {count := 0}` alone is vacuously true and
`AnyOf {count := 0}` alone is vacuously false. -/
theorem evaluate_rule_stack_semantics (nodes : List ExprNode) (m : SigMatchSet) :
    (evaluate_rule nodes m = true ↔ evalWalk m nodes [] = some [true])
    ∧ evaluate_rule [] m = false
    ∧ (evalWalk m nodes [] = none → evaluate_rule nodes m = false)
    ∧ (∀ s, evalWalk m nodes [] = some s → s.length ≠ 1 → evaluate_rule nodes m = false)
    ∧ evaluate_rule (List.replicate 17 (ExprNode.Sig 0) ++ [ExprNode.AnyOf 17]) m = false
    ∧ evaluate_rule [ExprNode.AllOf 0] m = true
    ∧ evaluate_rule [ExprNode.AnyOf 0] m = false := by
  refine ⟨?_, by simp [evaluate_rule], ?_, ?_, ?_, ?_, ?_⟩
  · cases nodes with
    | nil => simp [evaluate_rule, evalWalk]
    | cons n ns =>
      simp only [evaluate_rule, List.isEmpty_cons, Bool.false_eq_true, if_false]
      cases h : evalWalk m (n :: ns) [] with
      | none => simp
      | some s =>
        match s with
        | [] => simp
        | [v] => cases v <;> simp
        | v :: w :: t => simp
  · intro h
    cases nodes with
    | nil => simp [evaluate_rule]
    | cons n ns => simp [evaluate_rule, h]
  · intro s hs hlen
    cases nodes with
    | nil => simp [evaluate_rule]
    | cons n ns =>
      simp only [evaluate_rule, List.isEmpty_cons, Bool.false_eq_true, if_false, hs]
      match s, hlen with
      | [], _ => simp
      | v :: w :: t, _ => simp
      | [v], hlen => exact absurd rfl hlen
  · simp [evaluate_rule, List.replicate, evalWalk, evalStep, MAX_EVAL_STACK]
  · simp [evaluate_rule, evalWalk, evalStep, MAX_EVAL_STACK]
  · simp [evaluate_rule, evalWalk, evalStep, MAX_EVAL_STACK]

/-- Witness for C1: a concrete walk leaving two values on the stack makes
`evaluate_rule` return false. -/
theorem evaluate_rule_stack_semantics_witness :
    evaluate_rule [ExprNode.Sig 0, ExprNode.Sig 1] SigMatchSet.new = false :=
  (evaluate_rule_stack_semantics [ExprNode.Sig 0, ExprNode.Sig 1] SigMatchSet.new).2.2.2.1
    [false, false] (by decide) (by decide)

/-! ### C2 : rule-engine laws -/

theorem evalWalk_append (m : SigMatchSet) (xs ys : List ExprNode) (s : List Bool) :
    evalWalk m (xs ++ ys) s = (evalWalk m xs s).bind (fun t => evalWalk m ys t) := by
  induction xs generalizing s with
  | nil => simp [evalWalk]
  | cons n ns ih =>
    simp only [List.cons_append, evalWalk]
    cases evalStep m s n with
    | none => simp
    | some t => simpa using ih t

theorem evalStep_length_le (m : SigMatchSet) (s : List Bool) (n : ExprNode)
    (s' : List Bool) (h : evalStep m s n = some s') : s'.length ≤ MAX_EVAL_STACK := by
  cases n with
  | Sig idx =>
    simp only [evalStep] at h
    split at h
    · rename_i hlt
      cases h
      simp only [List.length_cons]
      omega
    · exact absurd h (by simp)
  | AnyOf count =>
    simp only [evalStep] at h
    split at h
    · exact absurd h (by simp)
    · split at h
      · rename_i hlt hlen
        cases h
        simp only [List.length_cons, List.length_drop] at hlen ⊢
        omega
      · exact absurd h (by simp)
  | AllOf count =>
    simp only [evalStep] at h
    split at h
    · exact absurd h (by simp)
    · split at h
      · rename_i hlt hlen
        cases h
        simp only [List.length_cons, List.length_drop] at hlen ⊢
        omega
      · exact absurd h (by simp)
  | Not =>
    match s, h with
    | v :: rest, h =>
      simp only [evalStep] at h
      split at h
      · rename_i hlen
        cases h
        simp only [List.length_cons] at hlen ⊢
        omega
      · exact absurd h (by simp)

theorem evalWalk_length_le (m : SigMatchSet) (ns : List ExprNode) (s s' : List Bool)
    (h : evalWalk m ns s = some s') (hs : s.length ≤ MAX_EVAL_STACK) :
    s'.length ≤ MAX_EVAL_STACK := by
  induction ns generalizing s with
  | nil =>
    simp only [evalWalk, Option.some.injEq] at h
    exact h ▸ hs
  | cons n ns ih =>
    simp only [evalWalk] at h
    cases hstep : evalStep m s n with
    | none => rw [hstep] at h; exact absurd h (by simp)
    | some t =>
      rw [hstep] at h
      exact ih t h (evalStep_length_le m s n t hstep)

theorem perm_any_id {l l' : List Bool} (h : l.Perm l') : l.any id = l'.any id := by
  rw [Bool.eq_iff_iff]
  simp only [List.any_eq_true]
  constructor
  · rintro ⟨x, hx, hxx⟩; exact ⟨x, h.mem_iff.mp hx, hxx⟩
  · rintro ⟨x, hx, hxx⟩; exact ⟨x, h.mem_iff.mpr hx, hxx⟩

theorem perm_all_id {l l' : List Bool} (h : l.Perm l') : l.all id = l'.all id := by
  rw [Bool.eq_iff_iff]
  simp only [List.all_eq_true]
  constructor
  · intro hall x hx; exact hall x (h.mem_iff.mpr hx)
  · intro hall x hx; exact hall x (h.mem_iff.mp hx)

theorem evalWalk_flatten (m : SigMatchSet) (K : Nat) (cs : List (List ExprNode))
    (vs : List Bool) (h : List.Forall₂ (fun c v => EvalClosed m c v K) cs vs) :
    ∀ s : List Bool, s.length + cs.length + K ≤ MAX_EVAL_STACK + 1 →
      evalWalk m cs.flatten s = some (vs.reverse ++ s) := by
  induction h with
  | nil => intro s hb; simp [evalWalk]
  | cons h1 h2 ih =>
    intro s hb
    rename_i c v cs' vs'
    simp only [List.flatten_cons, evalWalk_append]
    rw [h1 s (by simp only [List.length_cons] at hb ⊢; omega)]
    rw [Option.some_bind]
    rw [ih (v :: s) (by simp only [List.length_cons] at hb ⊢; omega)]
    simp

theorem evaluate_rule_anyOf_flatten (m : SigMatchSet) (K : Nat)
    (cs : List (List ExprNode)) (vs : List Bool)
    (h : List.Forall₂ (fun c v => EvalClosed m c v K) cs vs)
    (hb : cs.length + K ≤ MAX_EVAL_STACK + 1) :
    evaluate_rule (cs.flatten ++ [ExprNode.AnyOf cs.length]) m = vs.any id := by
  have hlen := h.length_eq
  have hwalk : evalWalk m cs.flatten [] = some vs.reverse := by
    simpa using evalWalk_flatten m K cs vs h [] (by simpa using hb)
  have hrl : vs.reverse.length = cs.length := by simp [← hlen]
  rw [evaluate_rule, if_neg (by simp), evalWalk_append, hwalk, Option.some_bind]
  simp only [evalWalk, evalStep]
  rw [if_neg (by omega), ← hrl, List.take_length, List.drop_length]
  simp [List.any_reverse, MAX_EVAL_STACK]

theorem evaluate_rule_allOf_flatten (m : SigMatchSet) (K : Nat)
    (cs : List (List ExprNode)) (vs : List Bool)
    (h : List.Forall₂ (fun c v => EvalClosed m c v K) cs vs)
    (hb : cs.length + K ≤ MAX_EVAL_STACK + 1) :
    evaluate_rule (cs.flatten ++ [ExprNode.AllOf cs.length]) m = vs.all id := by
  have hlen := h.length_eq
  have hwalk : evalWalk m cs.flatten [] = some vs.reverse := by
    simpa using evalWalk_flatten m K cs vs h [] (by simpa using hb)
  have hrl : vs.reverse.length = cs.length := by simp [← hlen]
  rw [evaluate_rule, if_neg (by simp), evalWalk_append, hwalk, Option.some_bind]
  simp only [evalWalk, evalStep]
  rw [if_neg (by omega), ← hrl, List.take_length, List.drop_length]
  simp [List.all_reverse, MAX_EVAL_STACK]

theorem evalClosed_sig (m : SigMatchSet) (i : Nat) :
    EvalClosed m [ExprNode.Sig i] (m.get i) 1 := by
  intro s hs
  have hlt : s.length < MAX_EVAL_STACK := by omega
  simp [evalWalk, evalStep, hlt]

/-- Counterexample to C2 as stated: `AllOf` over the two well-formed child
subexpressions `allOf₁₆(sig 0, …, sig 0)` and `sig 0` evaluates to true in
one child order but false (16-deep stack overflow) after permuting the
children. -/
theorem evaluate_rule_perm_counterexample :
    evaluate_rule
        ((List.replicate 16 (ExprNode.Sig 0) ++ [ExprNode.AllOf 16]) ++ [ExprNode.Sig 0]
          ++ [ExprNode.AllOf 2]) (SigMatchSet.new.set 0) = true
    ∧ evaluate_rule
        ([ExprNode.Sig 0] ++ (List.replicate 16 (ExprNode.Sig 0) ++ [ExprNode.AllOf 16])
          ++ [ExprNode.AllOf 2]) (SigMatchSet.new.set 0) = false := by
  constructor <;> decide

/-- Claim C2 (amended): the rule-language laws hold whenever evaluation
stays within the 16-deep stack.  (1) Permuting the child subexpressions of
an `AnyOf`/`AllOf` combinator — each child a closed subexpression needing
at most `K` stack slots, with `children + K ≤ 17` so that no order can
overflow — does not change the result.  (2) `Not Not x = x` for every node
slice `x`, unconditionally.  (3) De Morgan: `Not(AnyOf(a, b))` equals
`AllOf(Not a, Not b)` and dually, for closed subexpressions `a`, `b` whose
stack needs fit (`ka ≤ 16`, `kb + 1 ≤ 16`). -/
theorem evaluate_rule_laws (m : SigMatchSet) :
    (∀ (cs cs' : List (List ExprNode)) (vs vs' : List Bool) (K : Nat),
        List.Forall₂ (fun c v => EvalClosed m c v K) cs vs →
        List.Forall₂ (fun c v => EvalClosed m c v K) cs' vs' →
        (cs.zip vs).Perm (cs'.zip vs') →
        cs.length + K ≤ MAX_EVAL_STACK + 1 →
        evaluate_rule (cs.flatten ++ [ExprNode.AnyOf cs.length]) m
            = evaluate_rule (cs'.flatten ++ [ExprNode.AnyOf cs'.length]) m
          ∧ evaluate_rule (cs.flatten ++ [ExprNode.AllOf cs.length]) m
            = evaluate_rule (cs'.flatten ++ [ExprNode.AllOf cs'.length]) m)
    ∧ (∀ x : List ExprNode,
        evaluate_rule (x ++ [ExprNode.Not, ExprNode.Not]) m = evaluate_rule x m)
    ∧ (∀ (a b : List ExprNode) (va vb : Bool) (ka kb : Nat),
        EvalClosed m a va ka → EvalClosed m b vb kb →
        ka ≤ MAX_EVAL_STACK → kb + 1 ≤ MAX_EVAL_STACK →
        evaluate_rule (a ++ b ++ [ExprNode.AnyOf 2, ExprNode.Not]) m
            = evaluate_rule (a ++ [ExprNode.Not] ++ b ++ [ExprNode.Not, ExprNode.AllOf 2]) m
          ∧ evaluate_rule (a ++ b ++ [ExprNode.AllOf 2, ExprNode.Not]) m
            = evaluate_rule (a ++ [ExprNode.Not] ++ b ++ [ExprNode.Not, ExprNode.AnyOf 2]) m) := by
  refine ⟨?_, ?_, ?_⟩
  · intro cs cs' vs vs' K h h' hp hb
    have hlen := h.length_eq
    have hlen' := h'.length_eq
    have hcs : cs'.length = cs.length := by
      have hzl := hp.length_eq
      simp only [List.length_zip, ← hlen, ← hlen', Nat.min_self] at hzl
      omega
    have hvperm : vs.Perm vs' := by
      have hmap := hp.map Prod.snd
      rwa [List.map_snd_zip _ _ (le_of_eq hlen.symm),
        List.map_snd_zip _ _ (le_of_eq hlen'.symm)] at hmap
    constructor
    · rw [evaluate_rule_anyOf_flatten m K cs vs h hb,
        evaluate_rule_anyOf_flatten m K cs' vs' h' (by omega)]
      exact perm_any_id hvperm
    · rw [evaluate_rule_allOf_flatten m K cs vs h hb,
        evaluate_rule_allOf_flatten m K cs' vs' h' (by omega)]
      exact perm_all_id hvperm
  · intro x
    cases x with
    | nil => simp [evaluate_rule, evalWalk, evalStep]
    | cons n ns =>
      rw [evaluate_rule, evaluate_rule, if_neg (by simp), if_neg (by simp), evalWalk_append]
      cases hw : evalWalk m (n :: ns) [] with
      | none => simp
      | some s =>
        have hs : s.length ≤ MAX_EVAL_STACK := evalWalk_length_le m _ [] s hw (by simp)
        match s with
        | [] => simp [evalWalk, evalStep]
        | [v] => simp [evalWalk, evalStep, MAX_EVAL_STACK, Bool.not_not]
        | v :: w :: t =>
          have hr : t.length + 1 < MAX_EVAL_STACK := by
            simp only [List.length_cons] at hs; omega
          simp [evalWalk, evalStep, hr, Bool.not_not]
  · intro a b va vb ka kb hav hbv hka hkb
    have hwa : evalWalk m a [] = some [va] := hav [] (by simpa using hka)
    have hwb : evalWalk m b [va] = some [vb, va] :=
      hbv [va] (by simp only [List.length_cons, List.length_nil]; omega)
    have hwb' : evalWalk m b [!va] = some [vb, !va] :=
      hbv [!va] (by simp only [List.length_cons, List.length_nil]; omega)
    constructor
    · rw [evaluate_rule, evaluate_rule, if_neg (by simp), if_neg (by simp)]
      simp only [evalWalk_append, hwa, Option.some_bind, hwb]
      simp [evalWalk, evalStep, MAX_EVAL_STACK, hwb']
    · rw [evaluate_rule, evaluate_rule, if_neg (by simp), if_neg (by simp)]
      simp only [evalWalk_append, hwa, Option.some_bind, hwb]
      simp [evalWalk, evalStep, MAX_EVAL_STACK, hwb']

/-- Witness for C2: the amended laws at concrete subexpressions. -/
theorem evaluate_rule_laws_witness :
    evaluate_rule ([ExprNode.Sig 0] ++ [ExprNode.Sig 1]
        ++ [ExprNode.AnyOf 2, ExprNode.Not]) SigMatchSet.new
      = evaluate_rule ([ExprNode.Sig 0] ++ [ExprNode.Not] ++ [ExprNode.Sig 1]
        ++ [ExprNode.Not, ExprNode.AllOf 2]) SigMatchSet.new :=
  ((evaluate_rule_laws SigMatchSet.new).2.2 [ExprNode.Sig 0] [ExprNode.Sig 1]
      (SigMatchSet.new.get 0) (SigMatchSet.new.get 1) 1 1
      (evalClosed_sig SigMatchSet.new 0) (evalClosed_sig SigMatchSet.new 1)
      (by decide) (by decide)).1

/-! ### C3 : disabled-radio and RSSI gates -/

/-- Claim C3: with the radio disabled or `rssi < min_rssi`, `filter_wifi`
and `filter_ble` return the fresh empty result — `matched = false`, no
reasons, empty signature bitset — regardless of the event content. -/
theorem filter_gates_return_empty (wi : WiFiScanInput) (bi : BleScanInput)
    (cfg : FilterConfig) :
    (cfg.wifi_enabled = false ∨ wi.rssi < cfg.min_rssi →
      filter_wifi wi cfg = some FilterResult.new)
    ∧ (cfg.ble_enabled = false ∨ bi.rssi < cfg.min_rssi →
      filter_ble bi cfg = some FilterResult.new)
    ∧ FilterResult.new.matched = false
    ∧ FilterResult.new.matchList = []
    ∧ FilterResult.new.sig_matches.is_empty = true := by
  refine ⟨?_, ?_, rfl, rfl, by decide⟩
  · rintro (h | h)
    · rw [filter_wifi, if_pos (by simp [h])]
    · by_cases hw : cfg.wifi_enabled
      · rw [filter_wifi, if_neg (by simp [hw]), if_pos h]
      · rw [filter_wifi, if_pos (by simp [hw])]
  · rintro (h | h)
    · rw [filter_ble, if_pos (by simp [h])]
    · by_cases hb : cfg.ble_enabled
      · rw [filter_ble, if_neg (by simp [hb]), if_pos h]
      · rw [filter_ble, if_pos (by simp [hb])]

/-- Witness for C3: a strong Flock beacon below a raised threshold is
filtered to the empty result. -/
theorem filter_gates_return_empty_witness :
    filter_wifi { mac := [0xB4, 0x1E, 0x52, 1, 2, 3], ssid := ascii "Flock-A1B2C3", rssi := -80 }
        { min_rssi := -70, wifi_enabled := true, ble_enabled := true }
      = some FilterResult.new :=
  (filter_gates_return_empty
      { mac := [0xB4, 0x1E, 0x52, 1, 2, 3], ssid := ascii "Flock-A1B2C3", rssi := -80 }
      { mac := [], name := [], rssi := 0, service_uuids_16 := [], manufacturer_id := 0,
        raw_ad := [] }
      { min_rssi := -70, wifi_enabled := true, ble_enabled := true }).1
    (Or.inr (by decide))

/-! ### C4 : `add_match` detail truncation -/

/-- Claim C4 (code bug): `FilterResult::add_match` slices `&detail[..32]`
without a character-boundary check, so a valid UTF-8 detail of 33 bytes
whose byte 32 is a continuation byte (31 `a`s then `é` = 0xC3 0xA9) makes
the slice panic (modelled `none`) instead of truncating to 32 bytes. -/
theorem add_match_panics_at_non_boundary :
    add_match FilterResult.new "ssid_exact" (List.replicate 31 97 ++ [195, 169]) = none := by
  decide

/-! ### C5 : BLE advertisement parser -/

/-- Counterexample to C5 as stated: a 34-byte local-name AD structure is
not "silently truncated to the name's capacity" (33) — `heapless`
`push_str` is all-or-nothing, so the name stays empty. -/
theorem ble_parse_name_drop_counterexample :
    (BleAdvParser.parse [1, 2, 3, 4, 5, 6] (-50) (35 :: 9 :: List.replicate 34 65)).name = []
    ∧ (List.replicate 34 65).take 33 ≠ ([] : List Nat) := by
  constructor
  · rw [BleAdvParser.parse, parseAdLoop]
    norm_num
    rw [parseAdLoop]
    simp [applyAdStruct]
  · decide

theorem pushUuids_length_le : ∀ (d us : List Nat), us.length ≤ 8 → (pushUuids us d).length ≤ 8
  | [], us, h => by simpa [pushUuids] using h
  | [b], us, h => by simpa [pushUuids] using h
  | b0 :: b1 :: rest, us, h => by
      rw [pushUuids]
      refine pushUuids_length_le rest _ ?_
      split
      · simpa using by omega
      · exact h

/-- `applyAdStruct` preserves the address, the RSSI, the 8-entry bound on
the UUID list and the 33-byte bound on the name. -/
theorem applyAdStruct_inv (ev : BleEvent) (t : Nat) (d : List Nat)
    (h : ev.name.length ≤ 33 ∧ ev.service_uuids_16.length ≤ 8) :
    (applyAdStruct ev t d).mac = ev.mac ∧ (applyAdStruct ev t d).rssi = ev.rssi
    ∧ (applyAdStruct ev t d).name.length ≤ 33
    ∧ (applyAdStruct ev t d).service_uuids_16.length ≤ 8 := by
  obtain ⟨hn, hu⟩ := h
  rw [applyAdStruct]
  split
  · exact ⟨rfl, rfl, hn, pushUuids_length_le d _ hu⟩
  · split
    · split
      · rename_i hc
        simp only [Bool.and_eq_true, decide_eq_true_eq] at hc
        exact ⟨rfl, rfl, by simpa using by omega, hu⟩
      · exact ⟨rfl, rfl, hn, hu⟩
    · split
      · split
        · exact ⟨rfl, rfl, hn, hu⟩
        · exact ⟨rfl, rfl, hn, hu⟩
      · exact ⟨rfl, rfl, hn, hu⟩

theorem parseAdLoop_inv (P : BleEvent → Prop)
    (hP : ∀ ev t d, P ev → P (applyAdStruct ev t d)) :
    ∀ (ad : List Nat) (ev : BleEvent), P ev → P (parseAdLoop ev ad)
  | [], ev, h => by rwa [parseAdLoop]
  | len :: rest, ev, h => by
      rw [parseAdLoop]
      split
      · exact h
      · exact parseAdLoop_inv P hP (rest.drop len)
          (applyAdStruct ev (rest.headD 0) ((rest.drop 1).take (len - 1))) (hP ev _ _ h)
  termination_by ad => ad.length
  decreasing_by simp only [List.length_drop, List.length_cons]; omega

/-- Claim C5 (amended): `BleAdvParser::parse` is total (never panics),
walks `[len][type][data]` structures stopping cleanly at `len == 0` or an
overrunning `len`; a type-0xFF structure with at least 2 data bytes sets
`manufacturer_id` to the first little-endian u16 (shorter data leaves it);
16-bit UUIDs append until the list holds 8; and type-0x08/0x09 data is
appended to the name only when it is valid UTF-8 and fits entirely in the
33-byte capacity — otherwise it is dropped whole, not truncated.  The
address and RSSI are copied and the bounds `|uuids| ≤ 8`, `|name| ≤ 33`
always hold. -/
theorem ble_adv_parse_spec (addr : List Nat) (rssi : Int) (ad : List Nat) :
    (BleAdvParser.parse addr rssi [] =
      { mac := addr, name := [], rssi := rssi, service_uuids_16 := [], manufacturer_id := 0 })
    ∧ (∀ ev len rest, len = 0 ∨ rest.length < len → parseAdLoop ev (len :: rest) = ev)
    ∧ (∀ ev len rest, len ≠ 0 → ¬ rest.length < len →
        parseAdLoop ev (len :: rest)
          = parseAdLoop (applyAdStruct ev (rest.headD 0) ((rest.drop 1).take (len - 1)))
              (rest.drop len))
    ∧ (∀ ev d, 2 ≤ d.length →
        (applyAdStruct ev 255 d).manufacturer_id = d.getD 0 0 + 256 * d.getD 1 0)
    ∧ (∀ ev d, d.length < 2 →
        (applyAdStruct ev 255 d).manufacturer_id = ev.manufacturer_id)
    ∧ (∀ ev d, utf8_valid d = true → ev.name.length + d.length ≤ 33 →
        (applyAdStruct ev 9 d).name = ev.name ++ d)
    ∧ (∀ ev d, 33 < ev.name.length + d.length → (applyAdStruct ev 9 d).name = ev.name)
    ∧ (BleAdvParser.parse addr rssi ad).mac = addr
    ∧ (BleAdvParser.parse addr rssi ad).rssi = rssi
    ∧ (BleAdvParser.parse addr rssi ad).name.length ≤ 33
    ∧ (BleAdvParser.parse addr rssi ad).service_uuids_16.length ≤ 8 := by
  have hinv := parseAdLoop_inv
    (fun ev => ev.mac = addr ∧ ev.rssi = rssi ∧ ev.name.length ≤ 33
      ∧ ev.service_uuids_16.length ≤ 8)
    (fun ev t d h => by
      obtain ⟨h1, h2, h3, h4⟩ := h
      obtain ⟨g1, g2, g3, g4⟩ := applyAdStruct_inv ev t d ⟨h3, h4⟩
      exact ⟨g1.trans h1, g2.trans h2, g3, g4⟩)
    ad
    { mac := addr, name := [], rssi := rssi, service_uuids_16 := [], manufacturer_id := 0 }
    ⟨rfl, rfl, by simp, by simp⟩
  refine ⟨by rw [BleAdvParser.parse, parseAdLoop], ?_, ?_, ?_, ?_, ?_, ?_,
    hinv.1, hinv.2.1, hinv.2.2.1, hinv.2.2.2⟩
  · intro ev len rest h
    rw [parseAdLoop, if_pos]
    rcases h with h | h
    · simp [h]
    · simp [h]
  · intro ev len rest h1 h2
    rw [parseAdLoop, if_neg]
    simp [h1, h2]
  · intro ev d hd
    simp [applyAdStruct, if_pos hd]
  · intro ev d hd
    have hnot : ¬ 2 ≤ d.length := by omega
    simp [applyAdStruct, hnot]
  · intro ev d hv hfit
    simp [applyAdStruct, hv, hfit]
  · intro ev d hfit
    have hnot : ¬ (ev.name.length + d.length ≤ 33) := by omega
    simp [applyAdStruct, hnot]

/-- Witness for C5: the amended parse facts at a concrete advertisement. -/
theorem ble_adv_parse_spec_witness :
    parseAdLoop
        { mac := [1, 2, 3], name := [], rssi := -50, service_uuids_16 := [],
          manufacturer_id := 0 } (0 :: [9, 65])
      = { mac := [1, 2, 3], name := [], rssi := -50, service_uuids_16 := [],
          manufacturer_id := 0 } :=
  (ble_adv_parse_spec [1, 2, 3] (-50) []).2.1
    { mac := [1, 2, 3], name := [], rssi := -50, service_uuids_16 := [],
      manufacturer_id := 0 } 0 [9, 65] (Or.inl rfl)

/-! ### C6 : line-reader round trip -/

/-- Counterexample to C6 as stated: for `s = [65, 13]` (`|s| < 512`) the
bytes of `s` do not all return `None` — the CR inside `s` yields `[65]`
early, and the final newline then yields nothing, so the round trip
produces `[[65]]`, not `[s]`. -/
theorem line_reader_counterexample :
    (feedMany LineReader.new ([65, 13] ++ [10])).2 = [[65]]
    ∧ [[65]] ≠ [[65, 13]] := by
  constructor <;> decide

theorem feedMany_append (xs : List Nat) :
    ∀ (r : LineReader) (ys : List Nat),
      feedMany r (xs ++ ys)
        = ((feedMany (feedMany r xs).1 ys).1,
            (feedMany r xs).2 ++ (feedMany (feedMany r xs).1 ys).2) := by
  induction xs with
  | nil => intro r ys; simp [feedMany]
  | cons b rest ih =>
    intro r ys
    simp only [List.cons_append, feedMany, List.append_eq]
    rw [ih]
    simp [List.append_assoc]

theorem feedMany_accumulate (s : List Nat) :
    ∀ r : LineReader, (∀ b ∈ s, b ≠ 10 ∧ b ≠ 13) → r.buf.length + s.length ≤ MAX_MSG_LEN →
      feedMany r s = (⟨r.buf ++ s⟩, []) := by
  induction s with
  | nil => intro r _ _; simp [feedMany]
  | cons b rest ih =>
    intro r hnb hlen
    have hb := hnb b (by simp)
    have hfeed : r.feed b = (⟨r.buf ++ [b]⟩, none) := by
      rw [LineReader.feed, if_neg (by simp [hb.1, hb.2]),
        if_pos (by simp only [List.length_cons] at hlen; omega)]
    rw [feedMany, hfeed]
    rw [ih ⟨r.buf ++ [b]⟩ (fun x hx => hnb x (by simp [hx]))
      (by simp only [List.length_append, List.length_cons, List.length_nil] at hlen ⊢; omega)]
    simp

/-- Claim C6 (amended): for every nonempty `s` with `|s| < 512` containing
no LF/CR byte, feeding the bytes of `s` into a fresh `LineReader` yields
nothing, and a following newline yields exactly `s` once with the reader
reset; feeding LF or CR to an empty reader yields nothing. -/
theorem line_reader_round_trip (s : List Nat) (h1 : s ≠ []) (h2 : s.length < MAX_MSG_LEN)
    (h3 : ∀ b ∈ s, b ≠ 10 ∧ b ≠ 13) :
    (feedMany LineReader.new s).2 = []
    ∧ feedMany LineReader.new (s ++ [10]) = (LineReader.new, [s])
    ∧ LineReader.new.feed 10 = (LineReader.new, none)
    ∧ LineReader.new.feed 13 = (LineReader.new, none) := by
  have hacc : feedMany LineReader.new s = (⟨s⟩, []) := by
    have := feedMany_accumulate s LineReader.new h3 (by simp [LineReader.new]; omega)
    simpa [LineReader.new] using this
  refine ⟨by simp [hacc], ?_, by decide, by decide⟩
  have hfeed : (⟨s⟩ : LineReader).feed 10 = (⟨[]⟩, some s) := by
    rw [LineReader.feed, if_pos (by simp), if_pos (by simpa using List.length_pos.mpr h1)]
  rw [feedMany_append s LineReader.new [10], hacc]
  rw [feedMany, hfeed, feedMany]
  rfl

/-- Witness for C6: the round trip at `s = "hi"`. -/
theorem line_reader_round_trip_witness :
    feedMany LineReader.new ([104, 105] ++ [10]) = (LineReader.new, [[104, 105]]) :=
  (line_reader_round_trip [104, 105] (by decide) (by decide) (by decide)).2.1

/-! ### C8 : host-command parsing -/

theorem dropWhile_idem (p : Nat → Bool) (l : List Nat) :
    (l.dropWhile p).dropWhile p = l.dropWhile p := by
  induction l with
  | nil => rfl
  | cons a t ih =>
    by_cases h : p a
    · simp [List.dropWhile_cons, h, ih]
    · simp [List.dropWhile_cons, h]

theorem trim_trailing_whitespace_idem (l : List Nat) :
    trim_trailing_whitespace (trim_trailing_whitespace l) = trim_trailing_whitespace l := by
  simp [trim_trailing_whitespace, dropWhile_idem]

/-- Claim C8: `parse_command` strips trailing whitespace (it only depends
on the trimmed input), returns `none` for an empty remainder or a failed
JSON parse, and dispatches on the `cmd` field — `start`/`stop`/`status`
unconditionally, `set_rssi`/`set_buzzer` exactly when their required field
is present, anything else silently dropped — for every behaviour
`fromSlice` of the external deserializer. -/
theorem parse_command_dispatch (fromSlice : List Nat → Option RawCommand)
    (data : List Nat) :
    parse_command fromSlice data = parse_command fromSlice (trim_trailing_whitespace data)
    ∧ (trim_trailing_whitespace data = [] → parse_command fromSlice data = none)
    ∧ (fromSlice (trim_trailing_whitespace data) = none → parse_command fromSlice data = none)
    ∧ (∀ raw, fromSlice (trim_trailing_whitespace data) = some raw →
        trim_trailing_whitespace data ≠ [] →
        (raw.cmd = ascii "start" → parse_command fromSlice data = some HostCommand.Start)
        ∧ (raw.cmd = ascii "stop" → parse_command fromSlice data = some HostCommand.Stop)
        ∧ (raw.cmd = ascii "status" → parse_command fromSlice data = some HostCommand.GetStatus)
        ∧ (raw.cmd = ascii "set_rssi" →
            parse_command fromSlice data = raw.min_rssi.map (fun v => HostCommand.SetRssi v))
        ∧ (raw.cmd = ascii "set_buzzer" →
            parse_command fromSlice data = raw.enabled.map (fun v => HostCommand.SetBuzzer v))
        ∧ (raw.cmd ∉ [ascii "start", ascii "stop", ascii "status", ascii "set_rssi",
              ascii "set_buzzer"] →
            parse_command fromSlice data = none)) := by
  refine ⟨?_, ?_, ?_, ?_⟩
  · simp only [parse_command, trim_trailing_whitespace_idem]
  · intro h
    simp [parse_command, h]
  · intro h
    by_cases he : trim_trailing_whitespace data = []
    · simp [parse_command, he]
    · simp only [parse_command, h]
      rw [if_neg (by simpa using he)]
  · intro raw hraw hne
    have hstep : parse_command fromSlice data =
        (if raw.cmd == ascii "start" then some HostCommand.Start
        else if raw.cmd == ascii "stop" then some HostCommand.Stop
        else if raw.cmd == ascii "status" then some HostCommand.GetStatus
        else if raw.cmd == ascii "set_rssi" then
          raw.min_rssi.map (fun v => HostCommand.SetRssi v)
        else if raw.cmd == ascii "set_buzzer" then
          raw.enabled.map (fun v => HostCommand.SetBuzzer v)
        else none) := by
      simp only [parse_command, hraw]
      rw [if_neg (by simpa using hne)]
    refine ⟨?_, ?_, ?_, ?_, ?_, ?_⟩
    · intro h; rw [hstep, if_pos (by simp [h])]
    · intro h
      rw [hstep, if_neg (by simp [h]; decide), if_pos (by simp [h])]
    · intro h
      rw [hstep, if_neg (by simp [h]; decide), if_neg (by simp [h]; decide),
        if_pos (by simp [h])]
    · intro h
      rw [hstep, if_neg (by simp [h]; decide), if_neg (by simp [h]; decide),
        if_neg (by simp [h]; decide), if_pos (by simp [h])]
    · intro h
      rw [hstep, if_neg (by simp [h]; decide), if_neg (by simp [h]; decide),
        if_neg (by simp [h]; decide), if_neg (by simp [h]; decide), if_pos (by simp [h])]
    · intro h
      simp only [List.mem_cons, List.mem_singleton, not_or] at h
      obtain ⟨n1, n2, n3, n4, n5⟩ := h
      rw [hstep, if_neg (by simpa using n1), if_neg (by simpa using n2),
        if_neg (by simpa using n3), if_neg (by simpa using n4), if_neg (by simpa using n5)]

/-- Witness for C8: a `set_rssi` command with its field present parses. -/
theorem parse_command_dispatch_witness :
    parse_command (fun _ => some ⟨ascii "set_rssi", some (-75), none⟩) (ascii "x")
      = some (HostCommand.SetRssi (-75)) :=
  ((parse_command_dispatch (fun _ => some ⟨ascii "set_rssi", some (-75), none⟩)
      (ascii "x")).2.2.2 ⟨ascii "set_rssi", some (-75), none⟩ rfl
      (by decide)).2.2.2.1 rfl

/-! ### C9 : SSID pattern matching -/

/-- Claim C9: `SsidPattern::matches` holds iff the SSID is the pattern
prefix followed by exactly `suffix_len` characters of the declared kind
(hex or decimal digits — single-byte ASCII, so byte count equals character
count); in particular a right-prefix SSID whose remainder has any other
length never matches. -/
theorem ssid_pattern_matches_iff (p : SsidPattern) (ssid : List Nat) :
    (p.matchesSsid ssid = true ↔
      ∃ rest, ssid = ascii p.pre ++ rest ∧ rest.length = p.suffix_len
        ∧ rest.all (kindByte p.suffix_kind) = true)
    ∧ (∀ rest, ssid = ascii p.pre ++ rest → rest.length ≠ p.suffix_len →
        p.matchesSsid ssid = false) := by
  have hmk : ∀ (s : List Nat),
      (match p.suffix_kind with
        | SuffixKind.HexChars => s.all isAsciiHexdigitByte
        | SuffixKind.DecimalDigits => s.all isAsciiDigitByte)
        = s.all (kindByte p.suffix_kind) := by
    intro s; cases p.suffix_kind <;> rfl
  constructor
  · constructor
    · intro h
      rw [SsidPattern.matchesSsid] at h
      by_cases hpre : (ascii p.pre).isPrefixOf ssid
      · rw [if_pos hpre] at h
        by_cases hl : ((ssid.drop (ascii p.pre).length).length != p.suffix_len) = true
        · rw [if_pos hl] at h
          exact absurd h (by simp)
        · rw [if_neg hl, hmk] at h
          refine ⟨ssid.drop (ascii p.pre).length, ?_, ?_, h⟩
          · obtain ⟨t, ht⟩ := List.isPrefixOf_iff_prefix.mp hpre
            rw [← ht, List.drop_left]
          · simpa using hl
      · rw [if_neg hpre] at h
        exact absurd h (by simp)
    · rintro ⟨rest, hss, hlen, hall⟩
      rw [SsidPattern.matchesSsid,
        if_pos (show (ascii p.pre).isPrefixOf ssid = true by
          rw [hss]; exact List.isPrefixOf_iff_prefix.mpr ⟨rest, rfl⟩)]
      rw [hss, List.drop_left, if_neg (by simp [hlen]), hmk]
      exact hall
  · intro rest hss hlen
    rw [SsidPattern.matchesSsid,
      if_pos (show (ascii p.pre).isPrefixOf ssid = true by
        rw [hss]; exact List.isPrefixOf_iff_prefix.mpr ⟨rest, rfl⟩)]
    rw [hss, List.drop_left, if_pos (by simpa using hlen)]

/-- Witness for C9: the Flock pattern rejects `"Flock-A1B"` (3-character
remainder instead of 6). -/
theorem ssid_pattern_matches_iff_witness :
    SsidPattern.matchesSsid
      { pre := "Flock-", suffix_len := 6, suffix_kind := SuffixKind.HexChars,
        description := "Flock Safety camera WiFi" } (ascii "Flock-A1B") = false :=
  (ssid_pattern_matches_iff
      { pre := "Flock-", suffix_len := 6, suffix_kind := SuffixKind.HexChars,
        description := "Flock Safety camera WiFi" } (ascii "Flock-A1B")).2
    (ascii "A1B") (by decide) (by decide)

/-! ### C7 : NDJSON framing of `serialize_message` -/

theorem ten_notin_append {l1 l2 : List Nat} (h1 : 10 ∉ l1) (h2 : 10 ∉ l2) :
    10 ∉ l1 ++ l2 := by
  intro h
  rcases List.mem_append.mp h with h | h
  · exact h1 h
  · exact h2 h

theorem ten_notin_cons {b : Nat} {l : List Nat} (hb : b ≠ 10) (h : 10 ∉ l) :
    10 ∉ b :: l := by
  intro hm
  rcases List.mem_cons.mp hm with hm | hm
  · exact hb hm.symm
  · exact h hm

theorem escByte_ge_32 (b : Nat) : ∀ x ∈ escByte b, 32 ≤ x := by
  have hhex : ∀ d, 48 ≤ hexDigitByte d := by
    intro d
    rw [hexDigitByte]
    split <;> omega
  intro x hx
  rw [escByte] at hx
  split at hx
  · fin_cases hx <;> decide
  · split at hx
    · fin_cases hx <;> decide
    · split at hx
      · fin_cases hx <;> decide
      · split at hx
        · fin_cases hx <;> decide
        · split at hx
          · fin_cases hx <;> decide
          · split at hx
            · fin_cases hx <;> decide
            · split at hx
              · fin_cases hx <;> decide
              · split at hx
                · fin_cases hx
                  · decide
                  · decide
                  · decide
                  · decide
                  · exact le_trans (by decide) (hhex _)
                  · exact le_trans (by decide) (hhex _)
                · fin_cases hx
                  omega

theorem ten_not_mem_escapeBytes (s : List Nat) : 10 ∉ escapeBytes s := by
  intro hmem
  rw [escapeBytes, List.mem_flatten] at hmem
  obtain ⟨l, hl, hx⟩ := hmem
  rw [List.mem_map] at hl
  obtain ⟨b, _, hb⟩ := hl
  have := escByte_ge_32 b 10 (hb ▸ hx)
  omega

theorem ten_not_mem_jsonStr (s : List Nat) : 10 ∉ jsonStr s := by
  rw [jsonStr]
  exact ten_notin_cons (by decide)
    (ten_notin_append (ten_not_mem_escapeBytes s) (by decide))

theorem natDecimalAux_ge_48 : ∀ (fuel n : Nat), ∀ x ∈ natDecimalAux fuel n, 48 ≤ x := by
  intro fuel
  induction fuel with
  | zero => intro n x hx; simp [natDecimalAux] at hx
  | succ fuel ih =>
    intro n x hx
    rw [natDecimalAux] at hx
    split at hx
    · simp at hx
      omega
    · rw [List.mem_append] at hx
      rcases hx with hx | hx
      · exact ih (n / 10) x hx
      · simp at hx
        omega

theorem natDecimal_ge_48 (n : Nat) : ∀ x ∈ natDecimal n, 48 ≤ x :=
  natDecimalAux_ge_48 (n + 1) n

theorem ten_not_mem_natDecimal (n : Nat) : 10 ∉ natDecimal n := by
  intro h
  have := natDecimal_ge_48 n 10 h
  omega

theorem ten_not_mem_intDecimal (i : Int) : 10 ∉ intDecimal i := by
  rw [intDecimal]
  split
  · exact ten_notin_cons (by decide) (ten_not_mem_natDecimal _)
  · exact ten_not_mem_natDecimal _

theorem ten_not_mem_jsonField (nm : String) (v : List Nat)
    (hnm : 10 ∉ ascii nm) (hv : 10 ∉ v) : 10 ∉ jsonField nm v := by
  rw [jsonField]
  exact ten_notin_cons (by decide)
    (ten_notin_append (ten_notin_append hnm (by decide)) hv)

theorem ten_not_mem_jsonList : ∀ xs : List (List Nat),
    (∀ x ∈ xs, 10 ∉ x) → 10 ∉ jsonList xs
  | [], _ => by simp [jsonList]
  | [x], h => by
      rw [jsonList]
      exact h x (by simp)
  | x :: y :: xs, h => by
      rw [jsonList]
      exact ten_notin_append (ten_notin_append (h x (by simp)) (by decide))
        (ten_not_mem_jsonList (y :: xs) (fun z hz => h z (by
          simp only [List.mem_cons] at hz ⊢
          tauto)))

theorem ten_not_mem_matchArray (ms : List MatchReason) : 10 ∉ matchArray ms := by
  rw [matchArray]
  refine ten_notin_cons (by decide) (ten_notin_append (ten_not_mem_jsonList _ ?_) (by decide))
  intro x hx
  rw [List.mem_map] at hx
  obtain ⟨mr, _, hmr⟩ := hx
  rw [← hmr]
  exact ten_notin_cons (by decide)
    (ten_notin_append
      (ten_notin_append
        (ten_notin_append
          (ten_not_mem_jsonField _ _ (by decide) (ten_not_mem_jsonStr _)) (by decide))
        (ten_not_mem_jsonField _ _ (by decide) (ten_not_mem_jsonStr _)))
      (by decide))

theorem ten_not_mem_optField (nm : String) (v : Option (List Nat))
    (hnm : 10 ∉ ascii nm) : 10 ∉ optField nm v := by
  cases v with
  | none => simp [optField]
  | some s =>
      rw [optField]
      exact ten_notin_cons (by decide)
        (ten_not_mem_jsonField nm _ hnm (ten_not_mem_jsonStr s))

theorem ten_not_mem_typeHeader (tag : String) : 10 ∉ typeHeader tag := by
  rw [typeHeader]
  exact ten_notin_cons (by decide)
    (ten_not_mem_jsonField _ _ (by decide) (ten_not_mem_jsonStr _))

theorem ten_not_mem_jsonBytes (msg : DeviceMessage) : 10 ∉ jsonBytes msg := by
  cases msg with
  | WiFiScan mac ssid rssi ch frame ms rule ts =>
      rw [jsonBytes]
      repeat' apply ten_notin_append
      all_goals first
        | exact ten_not_mem_typeHeader _
        | decide
        | exact ten_not_mem_jsonField _ _ (by decide) (ten_not_mem_jsonStr _)
        | exact ten_not_mem_jsonField _ _ (by decide) (ten_not_mem_intDecimal _)
        | exact ten_not_mem_jsonField _ _ (by decide) (ten_not_mem_natDecimal _)
        | exact ten_not_mem_jsonField _ _ (by decide) (ten_not_mem_matchArray _)
        | exact ten_not_mem_optField _ _ (by decide)
  | BleScan mac nm rssi uuid mfr ms rule ts =>
      rw [jsonBytes]
      repeat' apply ten_notin_append
      all_goals first
        | exact ten_not_mem_typeHeader _
        | decide
        | exact ten_not_mem_jsonField _ _ (by decide) (ten_not_mem_jsonStr _)
        | exact ten_not_mem_jsonField _ _ (by decide) (ten_not_mem_intDecimal _)
        | exact ten_not_mem_jsonField _ _ (by decide) (ten_not_mem_natDecimal _)
        | exact ten_not_mem_jsonField _ _ (by decide) (ten_not_mem_matchArray _)
        | exact ten_not_mem_optField _ _ (by decide)
  | Status scanning uptime heap_free ble_clients board version =>
      rw [jsonBytes]
      repeat' apply ten_notin_append
      all_goals first
        | exact ten_not_mem_typeHeader _
        | decide
        | exact ten_not_mem_jsonField _ _ (by decide) (ten_not_mem_jsonStr _)
        | exact ten_not_mem_jsonField _ _ (by decide) (ten_not_mem_natDecimal _)
        | exact ten_not_mem_jsonField _ _ (by decide) (by cases scanning <;> decide)

theorem jsonBytes_starts_with_typeHeader (msg : DeviceMessage) :
    (jsonBytes msg).take (typeHeader (typeTagStr msg)).length
      = typeHeader (typeTagStr msg) := by
  cases msg <;>
    · rw [jsonBytes, typeTagStr]
      simp only [List.append_assoc]
      exact List.take_left _ _

theorem jsonBytes_ends_with_brace (msg : DeviceMessage) :
    (jsonBytes msg).getLast? = some 125 := by
  cases msg <;>
    · rw [jsonBytes]
      rw [List.getLast?_append]
      rfl

/-- Claim C7: whenever the JSON serialization of a `DeviceMessage` fits the
output buffer, `serialize_message` writes the single-line JSON object — it
contains no 0x0A, starts with the internally-tagged header whose `type` is
`wifi`/`ble`/`status` matching the variant, and ends with `}` — followed by
a trailing 0x0A newline; when the JSON exactly fills the buffer, the JSON
length is returned with no newline appended. -/
theorem serialize_message_ndjson (msg : DeviceMessage) (cap : Nat)
    (h : (jsonBytes msg).length ≤ cap) :
    10 ∉ jsonBytes msg
    ∧ ((jsonBytes msg).length < cap →
        serialize_message msg cap
          = some ((jsonBytes msg).length + 1, jsonBytes msg ++ [10]))
    ∧ ((jsonBytes msg).length = cap →
        serialize_message msg cap = some ((jsonBytes msg).length, jsonBytes msg))
    ∧ (jsonBytes msg).take (typeHeader (typeTagStr msg)).length
        = typeHeader (typeTagStr msg)
    ∧ (jsonBytes msg).getLast? = some 125 := by
  refine ⟨ten_not_mem_jsonBytes msg, ?_, ?_,
    jsonBytes_starts_with_typeHeader msg, jsonBytes_ends_with_brace msg⟩
  · intro hlt
    rw [serialize_message, to_slice, if_pos h]
    dsimp only
    rw [if_pos hlt]
  · intro heq
    rw [serialize_message, to_slice, if_pos h]
    dsimp only
    rw [if_neg (by omega)]

/-- Witness for C7: a concrete status message serializes with its trailing
newline. -/
theorem serialize_message_ndjson_witness :
    serialize_message (DeviceMessage.Status true 120 48000 1 (ascii "tb") (ascii "0.1.0")) 512
      = some
        ((jsonBytes (DeviceMessage.Status true 120 48000 1 (ascii "tb") (ascii "0.1.0"))).length
            + 1,
          jsonBytes (DeviceMessage.Status true 120 48000 1 (ascii "tb") (ascii "0.1.0")) ++ [10]) :=
  (serialize_message_ndjson (DeviceMessage.Status true 120 48000 1 (ascii "tb") (ascii "0.1.0"))
      512 (by decide)).2.1 (by decide)

/-! ### C10 : flag / bitset agreement -/

theorem lor_eq_zero_parts {x y : Nat} (h : x ||| y = 0) : x = 0 ∧ y = 0 := by
  constructor <;> apply Nat.eq_of_testBit_eq <;> intro i <;>
    · have h2 := congrArg (fun n => Nat.testBit n i) h
      simp only [Nat.testBit_or, Nat.zero_testBit, Bool.or_eq_false_iff] at h2
      simp [h2.1, h2.2]

theorem set_or_all_zero_imp :
    ∀ (l : List Nat) (i w : Nat),
      (l.set i ((l.getD i 0) ||| w)).all (fun x => x == 0) = true →
      l.all (fun x => x == 0) = true
  | [], _, _, h => h
  | a :: t, 0, w, h => by
      simp only [List.getD_cons_zero, List.set_cons_zero, List.all_cons,
        Bool.and_eq_true, beq_iff_eq] at h ⊢
      exact ⟨(lor_eq_zero_parts h.1).1, h.2⟩
  | a :: t, i + 1, w, h => by
      simp only [List.getD_cons_succ, List.set_cons_succ, List.all_cons,
        Bool.and_eq_true] at h ⊢
      exact ⟨h.1, set_or_all_zero_imp t i w h.2⟩

theorem set_or_nonzero :
    ∀ (l : List Nat) (i w : Nat), i < l.length → w ≠ 0 →
      (l.set i ((l.getD i 0) ||| w)).all (fun x => x == 0) = false
  | [], i, w, hi, _ => by simp at hi
  | a :: t, 0, w, _, hw => by
      simp only [List.getD_cons_zero, List.set_cons_zero, List.all_cons]
      have : (a ||| w == 0) = false := by
        rw [beq_eq_false_iff_ne]
        intro h
        exact hw (lor_eq_zero_parts h).2
      rw [this, Bool.false_and]
  | a :: t, i + 1, w, hi, hw => by
      simp only [List.getD_cons_succ, List.set_cons_succ, List.all_cons]
      rw [set_or_nonzero t i w (by simpa using hi) hw, Bool.and_false]

theorem sigset_bits_length (m : SigMatchSet) (idx : Nat) :
    (m.set idx).bits.length = m.bits.length := by
  rw [SigMatchSet.set]
  split
  · simp [List.length_set]
  · rfl

theorem sigset_empty_imp (m : SigMatchSet) (idx : Nat)
    (h : (m.set idx).is_empty = true) : m.is_empty = true := by
  rw [SigMatchSet.set] at h
  split at h
  · exact set_or_all_zero_imp m.bits (idx / 64) (1 <<< (idx % 64)) h
  · exact h

theorem sigset_not_empty (m : SigMatchSet) (idx : Nat) (h4 : m.bits.length = 4)
    (hidx : idx < MAX_SIGNATURES) : (m.set idx).is_empty = false := by
  rw [SigMatchSet.set, if_pos hidx, SigMatchSet.is_empty]
  apply set_or_nonzero
  · rw [h4]
    rw [MAX_SIGNATURES] at hidx
    omega
  · rw [Nat.shiftLeft_eq, Nat.one_mul]
    exact (Nat.pos_pow_of_pos _ (by omega)).ne'

theorem WfR_new : WfR FilterResult.new := by
  refine ⟨rfl, by decide, by intro h; exact absurd rfl h⟩

theorem add_match_spec (r : FilterResult) (t : String) (d : List Nat)
    (hd : d.length ≤ 32) :
    ∃ r', add_match r t d = some r' ∧ r'.sig_matches = r.sig_matches
      ∧ r'.matched = true := by
  rw [add_match]
  by_cases hl : r.matchList.length < 4
  · rw [if_pos hl, if_pos hd]
    exact ⟨_, rfl, rfl, rfl⟩
  · rw [if_neg hl]
    exact ⟨_, rfl, rfl, rfl⟩

theorem paired_step_wf (r : FilterResult) (t : String) (d : List Nat) (idx : Nat)
    (hd : d.length ≤ 32) (hidx : idx < MAX_SIGNATURES) (hwf : WfR r) :
    ∃ r', add_match { r with sig_matches := r.sig_matches.set idx } t d = some r'
      ∧ WfR r' ∧ r'.matched = true := by
  obtain ⟨r', ha, hsig, hm⟩ :=
    add_match_spec { r with sig_matches := r.sig_matches.set idx } t d hd
  refine ⟨r', ha, ⟨?_, ?_, fun _ => hm⟩, hm⟩
  · rw [hsig]
    simpa [sigset_bits_length] using hwf.1
  · rw [hm, hsig]
    simp only [true_iff]
    exact sigset_not_empty r.sig_matches idx hwf.1 hidx

theorem step_option_wf (r : FilterResult) (cond : Bool) (t : String) (d : List Nat)
    (idx : Nat) (hd : d.length ≤ 32) (hidx : idx < MAX_SIGNATURES) (hwf : WfR r) :
    ∃ r', (if cond then add_match { r with sig_matches := r.sig_matches.set idx } t d
        else some r) = some r'
      ∧ WfR r' ∧ (r.matched = true → r'.matched = true) := by
  cases cond
  · exact ⟨r, rfl, hwf, fun h => h⟩
  · obtain ⟨r', ha, hw, hmt⟩ := paired_step_wf r t d idx hd hidx hwf
    exact ⟨r', by simpa using ha, hw, fun _ => hmt⟩

theorem foldlM_wf {α : Type} (l : List α) (f : FilterResult → α → Option FilterResult)
    (hf : ∀ r a, a ∈ l → WfR r →
      ∃ r', f r a = some r' ∧ WfR r' ∧ (r.matched = true → r'.matched = true)) :
    ∀ r, WfR r → ∃ r', l.foldlM f r = some r' ∧ WfR r'
      ∧ (r.matched = true → r'.matched = true) := by
  induction l with
  | nil => intro r h; exact ⟨r, rfl, h, fun x => x⟩
  | cons a t ih =>
    intro r h
    obtain ⟨r1, h1, hw1, hm1⟩ := hf r a (by simp) h
    obtain ⟨r2, h2, hw2, hm2⟩ := ih (fun r a ha hw => hf r a (by simp [ha]) hw) r1 hw1
    refine ⟨r2, ?_, hw2, fun hm => hm2 (hm1 hm)⟩
    rw [List.foldlM_cons, h1]
    simpa using h2

theorem check_mac_oui_go_wf (oui : List Nat) :
    ∀ (l : List (Nat × (List Nat × String))),
      (∀ ip ∈ l, SIG_IDX_MAC_OUI_START + ip.1 < MAX_SIGNATURES
        ∧ (ascii ip.2.2).length ≤ 32) →
      ∀ r, WfR r → ∃ r', check_mac_oui_go oui r l = some r' ∧ WfR r'
        ∧ (r.matched = true → r'.matched = true) := by
  intro l
  induction l with
  | nil => intro _ r h; exact ⟨r, rfl, h, fun x => x⟩
  | cons ip rest ih =>
    intro hok r h
    rw [check_mac_oui_go]
    split
    · obtain ⟨hidx, hd⟩ := hok ip (by simp)
      obtain ⟨r', ha, hw, hmt⟩ := paired_step_wf r "mac_oui" (ascii ip.2.2)
        (SIG_IDX_MAC_OUI_START + ip.1) hd hidx h
      exact ⟨r', ha, hw, fun _ => hmt⟩
    · exact ih (fun q hq => hok q (by simp [hq])) r h

theorem mac_enum_ok : ∀ ip ∈ MAC_PREFIXES.enum,
    SIG_IDX_MAC_OUI_START + ip.1 < MAX_SIGNATURES ∧ (ascii ip.2.2).length ≤ 32 := by
  decide

theorem check_mac_oui_wf (mac : List Nat) (r : FilterResult) (h : WfR r) :
    ∃ r', check_mac_oui mac r = some r' ∧ WfR r'
      ∧ (r.matched = true → r'.matched = true) :=
  check_mac_oui_go_wf (mac.take 3) MAC_PREFIXES.enum mac_enum_ok r h

theorem ssid_pattern_enum_ok : ∀ ip ∈ SSID_PATTERNS.enum,
    SIG_IDX_SSID_PATTERN_START + ip.1 < MAX_SIGNATURES
      ∧ (ascii ip.2.description).length ≤ 32 := by
  decide

theorem ssid_exact_enum_ok : ∀ ip ∈ SSID_EXACT.enum,
    SIG_IDX_SSID_EXACT_START + ip.1 < MAX_SIGNATURES ∧ (ascii ip.2).length ≤ 32 := by
  decide

theorem ble_name_enum_ok : ∀ ip ∈ BLE_NAME_PATTERNS.enum,
    SIG_IDX_BLE_NAME_START + ip.1 < MAX_SIGNATURES ∧ (ascii ip.2).length ≤ 32 := by
  decide

theorem ble_uuid_enum_ok : ∀ ip ∈ BLE_SERVICE_UUIDS_16.enum,
    SIG_IDX_BLE_UUID_START + ip.1 < MAX_SIGNATURES := by
  decide

theorem ble_std_uuid_enum_ok : ∀ ip ∈ BLE_STANDARD_UUIDS_16.enum,
    SIG_IDX_BLE_STD_UUID_START + ip.1 < MAX_SIGNATURES := by
  decide

theorem ble_mfr_enum_ok : ∀ ip ∈ BLE_MANUFACTURER_IDS.enum,
    SIG_IDX_BLE_MFR_START + ip.1 < MAX_SIGNATURES := by
  decide

theorem ad_bytes_enum_ok : ∀ ip ∈ BLE_AD_BYTES_PATTERNS.enum,
    SIG_IDX_BLE_AD_BYTES_START + ip.1 < MAX_SIGNATURES
      ∧ (ascii ip.2.description).length ≤ 32 := by
  decide

theorem ssid_keyword_fold_wf (sl : List Nat) (r : FilterResult) (hwf : WfR r) :
    ∃ r', (SSID_KEYWORDS.enum.foldlM (fun r ix =>
        if containsSub sl (ascii ix.2) then
          add_match
            { r with sig_matches := r.sig_matches.set (SIG_IDX_SSID_KEYWORD_START + ix.1) }
            "ssid_keyword" (ascii ix.2)
        else some r) r) = some r'
      ∧ WfR r' ∧ (r.matched = true → r'.matched = true)
      ∧ (containsSub sl (ascii "flock") = true → r'.matched = true) := by
  have henum : SSID_KEYWORDS.enum = [(0, "flock"), (1, "penguin"), (2, "pigvision")] := rfl
  rw [henum]
  have hf : ∀ (rr : FilterResult) (a : Nat × String),
      a ∈ [((1 : Nat), "penguin"), (2, "pigvision")] → WfR rr →
      ∃ r', (if containsSub sl (ascii a.2) then
          add_match
            { rr with
              sig_matches := rr.sig_matches.set (SIG_IDX_SSID_KEYWORD_START + a.1) }
            "ssid_keyword" (ascii a.2)
        else some rr) = some r'
        ∧ WfR r' ∧ (rr.matched = true → r'.matched = true) := by
    intro rr a ha hw
    fin_cases ha
    · exact step_option_wf rr _ "ssid_keyword" (ascii "penguin")
        (SIG_IDX_SSID_KEYWORD_START + 1) (by decide) (by decide) hw
    · exact step_option_wf rr _ "ssid_keyword" (ascii "pigvision")
        (SIG_IDX_SSID_KEYWORD_START + 2) (by decide) (by decide) hw
  by_cases c1 : containsSub sl (ascii "flock") = true
  · obtain ⟨r1, h1, hw1, hm1⟩ := paired_step_wf r "ssid_keyword" (ascii "flock")
      (SIG_IDX_SSID_KEYWORD_START + 0) (by decide) (by decide) hwf
    obtain ⟨r3, h3, hw3, hm3⟩ := foldlM_wf _ _ hf r1 hw1
    refine ⟨r3, ?_, hw3, fun _ => hm3 hm1, fun _ => hm3 hm1⟩
    rw [List.foldlM_cons]
    simp only [if_pos c1]
    rw [h1]
    simpa using h3
  · obtain ⟨r3, h3, hw3, hm3⟩ := foldlM_wf _ _ hf r hwf
    refine ⟨r3, ?_, hw3, hm3, fun hc => absurd hc c1⟩
    rw [List.foldlM_cons]
    simp only [if_neg c1]
    simpa using h3

theorem wifi_name_fold_wf (sl : List Nat) (r : FilterResult) (hwf : WfR r)
    (hflock : containsSub sl (ascii "flock") = true → r.matched = true) :
    ∃ r', (WIFI_NAME_KEYWORDS.enum.foldlM (fun r ix =>
        if containsSub sl (ascii ix.2) then
          let ru :=
            { r with sig_matches := r.sig_matches.set (SIG_IDX_WIFI_NAME_START + ix.1) }
          if SSID_KEYWORDS.contains ix.2 then some ru
          else add_match ru "wifi_name" (ascii ix.2)
        else some r) r) = some r'
      ∧ WfR r' ∧ (r.matched = true → r'.matched = true) := by
  have henum : WIFI_NAME_KEYWORDS.enum = [((0 : Nat), "flock")] := rfl
  have hcont : SSID_KEYWORDS.contains "flock" = true := by decide
  rw [henum]
  simp only [List.foldlM_cons, List.foldlM_nil]
  by_cases c1 : containsSub sl (ascii "flock") = true
  · have hmr : r.matched = true := hflock c1
    refine ⟨{ r with
        sig_matches := r.sig_matches.set (SIG_IDX_WIFI_NAME_START + 0) },
      ?_, ⟨?_, ?_, ?_⟩, fun _ => hmr⟩
    · simp [c1, hcont]
      intro hno
      exact absurd (by decide) hno
    · simpa [sigset_bits_length] using hwf.1
    · rw [show ({ r with
          sig_matches := r.sig_matches.set (SIG_IDX_WIFI_NAME_START + 0) }
            : FilterResult).matched = r.matched from rfl, hmr]
      simp only [true_iff]
      exact sigset_not_empty _ _ hwf.1 (by decide)
    · intro _
      exact hmr
  · refine ⟨r, ?_, hwf, fun h => h⟩
    simp [c1]

theorem filter_wifi_wf (wi : WiFiScanInput) (cfg : FilterConfig) :
    ∃ r, filter_wifi wi cfg = some r ∧ WfR r := by
  rw [filter_wifi]
  split
  · exact ⟨FilterResult.new, rfl, WfR_new⟩
  split
  · exact ⟨FilterResult.new, rfl, WfR_new⟩
  obtain ⟨r1, h1, hw1, _⟩ := check_mac_oui_wf wi.mac FilterResult.new WfR_new
  obtain ⟨r2, h2, hw2, _⟩ := foldlM_wf SSID_PATTERNS.enum _
    (fun rr a ha hw => step_option_wf rr _ "ssid_pattern" (ascii a.2.description)
      (SIG_IDX_SSID_PATTERN_START + a.1) (ssid_pattern_enum_ok a ha).2
      (ssid_pattern_enum_ok a ha).1 hw) r1 hw1
  obtain ⟨r3, h3, hw3, _⟩ := foldlM_wf SSID_EXACT.enum _
    (fun rr a ha hw => step_option_wf rr _ "ssid_exact" (ascii a.2)
      (SIG_IDX_SSID_EXACT_START + a.1) (ssid_exact_enum_ok a ha).2
      (ssid_exact_enum_ok a ha).1 hw) r2 hw2
  obtain ⟨r4, h4, hw4, _, hflock4⟩ := ssid_keyword_fold_wf
    (if utf8_valid ((wi.ssid.take 33).map to_ascii_lowercase) = true
      then (wi.ssid.take 33).map to_ascii_lowercase else []) r3 hw3
  obtain ⟨r5, h5, hw5, _⟩ := wifi_name_fold_wf
    (if utf8_valid ((wi.ssid.take 33).map to_ascii_lowercase) = true
      then (wi.ssid.take 33).map to_ascii_lowercase else []) r4 hw4 hflock4
  refine ⟨r5, ?_, hw5⟩
  rw [h1]
  simp only [Option.bind_eq_bind, Option.some_bind]
  rw [h2]
  simp only [Option.bind_eq_bind, Option.some_bind]
  rw [h3]
  simp only [Option.bind_eq_bind, Option.some_bind]
  rw [h4]
  simp only [Option.bind_eq_bind, Option.some_bind]
  rw [h5]
  rfl

theorem ite_some_wf (c : Prop) [Decidable c] (e : Option FilterResult) (r : FilterResult)
    (hw : WfR r)
    (he : c → ∃ r', e = some r' ∧ WfR r' ∧ (r.matched = true → r'.matched = true)) :
    ∃ r', (if c then e else some r) = some r'
      ∧ WfR r' ∧ (r.matched = true → r'.matched = true) := by
  split
  · rename_i hc
    exact he hc
  · exact ⟨r, rfl, hw, fun h => h⟩

theorem ble_name_check_wf (input : BleScanInput) (r : FilterResult) (hw : WfR r) :
    ∃ r', ble_name_check input r = some r'
      ∧ WfR r' ∧ (r.matched = true → r'.matched = true) := by
  rw [ble_name_check]
  split
  · exact foldlM_wf BLE_NAME_PATTERNS.enum _
      (fun rr a ha hw => step_option_wf rr _ "ble_name" (ascii a.2)
        (SIG_IDX_BLE_NAME_START + a.1) (ble_name_enum_ok a ha).2
        (ble_name_enum_ok a ha).1 hw) r hw
  · exact ⟨r, rfl, hw, fun h => h⟩

theorem ble_uuid_check_wf (uuid : Nat) (r : FilterResult) (hw : WfR r) :
    ∃ r', ble_uuid_check uuid r = some r'
      ∧ WfR r' ∧ (r.matched = true → r'.matched = true) := by
  obtain ⟨ra, hA, hwA, hmA⟩ := foldlM_wf BLE_SERVICE_UUIDS_16.enum _
    (fun rr a ha hw => step_option_wf rr _ "ble_uuid" (ascii "Raven service UUID")
      (SIG_IDX_BLE_UUID_START + a.1) (by decide) (ble_uuid_enum_ok a ha) hw) r hw
  obtain ⟨rb, hB, hwB, hmB⟩ := foldlM_wf BLE_STANDARD_UUIDS_16.enum _
    (fun rr a ha hw => step_option_wf rr _ "ble_uuid_std" (ascii "Raven standard UUID")
      (SIG_IDX_BLE_STD_UUID_START + a.1) (by decide) (ble_std_uuid_enum_ok a ha) hw) ra hwA
  refine ⟨rb, ?_, hwB, fun hm => hmB (hmA hm)⟩
  rw [ble_uuid_check, hA]
  simp only [Option.bind_eq_bind, Option.some_bind]
  exact hB

theorem ble_mfr_check_wf (input : BleScanInput) (r : FilterResult) (hw : WfR r) :
    ∃ r', ble_mfr_check input r = some r'
      ∧ WfR r' ∧ (r.matched = true → r'.matched = true) := by
  rw [ble_mfr_check]
  split
  · exact foldlM_wf BLE_MANUFACTURER_IDS.enum _
      (fun rr a ha hw => step_option_wf rr _ "ble_mfr" (ascii "Known manufacturer ID")
        (SIG_IDX_BLE_MFR_START + a.1) (by decide) (ble_mfr_enum_ok a ha) hw) r hw
  · exact ⟨r, rfl, hw, fun h => h⟩

theorem check_ble_ad_bytes_wf (raw : List Nat) (r : FilterResult) (h : WfR r) :
    ∃ r', check_ble_ad_bytes raw r = some r'
      ∧ WfR r' ∧ (r.matched = true → r'.matched = true) := by
  rw [check_ble_ad_bytes]
  exact foldlM_wf BLE_AD_BYTES_PATTERNS.enum _
    (fun rr a ha hw => step_option_wf rr _ "ble_ad_bytes" (ascii a.2.description)
      (SIG_IDX_BLE_AD_BYTES_START + a.1) (ad_bytes_enum_ok a ha).2
      (ad_bytes_enum_ok a ha).1 hw) r h

theorem filter_ble_wf (bi : BleScanInput) (cfg : FilterConfig) :
    ∃ r, filter_ble bi cfg = some r ∧ WfR r := by
  rw [filter_ble]
  split
  · exact ⟨FilterResult.new, rfl, WfR_new⟩
  split
  · exact ⟨FilterResult.new, rfl, WfR_new⟩
  obtain ⟨r1, h1, hw1, _⟩ := check_mac_oui_wf bi.mac FilterResult.new WfR_new
  obtain ⟨r2, h2, hw2, _⟩ := ble_name_check_wf bi r1 hw1
  obtain ⟨r3, h3, hw3, _⟩ := foldlM_wf bi.service_uuids_16 _
    (fun rr u hu hw => ble_uuid_check_wf u rr hw) r2 hw2
  obtain ⟨r4, h4, hw4, _⟩ := ble_mfr_check_wf bi r3 hw3
  obtain ⟨r5, h5, hw5, _⟩ := ite_some_wf ((!bi.raw_ad.isEmpty) = true) _ r4 hw4
    (fun _ => check_ble_ad_bytes_wf bi.raw_ad r4 hw4)
  refine ⟨r5, ?_, hw5⟩
  rw [h1]
  simp only [Option.bind_eq_bind, Option.some_bind]
  rw [h2]
  simp only [Option.bind_eq_bind, Option.some_bind]
  rw [h3]
  simp only [Option.bind_eq_bind, Option.some_bind]
  rw [h4]
  simp only [Option.bind_eq_bind, Option.some_bind]
  exact h5

/-- C10: for every input and config, `filter_wifi` and `filter_ble` return a
result (no panic) whose `matched` flag holds exactly when the `sig_matches`
bitset is non-empty, and whose recorded reasons imply a set bit: the boolean
flag and the bitset never disagree, even when the 4-entry reasons list is
full or a reason is deduplicated away. -/
theorem filter_flag_bitset_agree (wi : WiFiScanInput) (bi : BleScanInput)
    (cfg : FilterConfig) :
    (∃ r, filter_wifi wi cfg = some r
      ∧ (r.matched = true ↔ r.sig_matches.is_empty = false)
      ∧ (r.matchList ≠ [] → r.sig_matches.is_empty = false))
    ∧ ∃ r, filter_ble bi cfg = some r
      ∧ (r.matched = true ↔ r.sig_matches.is_empty = false)
      ∧ (r.matchList ≠ [] → r.sig_matches.is_empty = false) := by
  constructor
  · obtain ⟨r, hr, hw⟩ := filter_wifi_wf wi cfg
    exact ⟨r, hr, hw.2.1, fun hne => hw.2.1.mp (hw.2.2 hne)⟩
  · obtain ⟨r, hr, hw⟩ := filter_ble_wf bi cfg
    exact ⟨r, hr, hw.2.1, fun hne => hw.2.1.mp (hw.2.2 hne)⟩
